import Mathlib

/-!
Verification of Kornia color conversions (gray.ipynb, lab.ipynb).

Images are modelled as shaped tensors: a shape (list of dimension sizes)
together with a data function from index lists to scalars.  The channel
axis is the third-from-last axis, matching the source's `(*, C, H, W)`
layout.  Converters return `Except ColorError (Tensor α)`, mirroring the
Python functions that raise `ValueError` (shape) or `TypeError` (dtype).
-/

namespace KorniaColor

/-- `validIdx s idx` holds when `idx` is a legal multi-index for shape `s`:
same rank and every coordinate below the corresponding dimension size. -/
def validIdx : List ℕ → List ℕ → Bool
  | [], [] => true
  | d :: s, i :: idx => decide (i < d) && validIdx s idx
  | _, _ => false

theorem validIdx_nil_nil : validIdx [] [] = true := rfl

theorem validIdx_cons (d i : ℕ) (s idx : List ℕ) :
    validIdx (d :: s) (i :: idx) = (decide (i < d) && validIdx s idx) := rfl

theorem validIdx_length : ∀ {s idx : List ℕ}, validIdx s idx = true → idx.length = s.length
  | [], [], _ => rfl
  | _ :: s, _ :: idx, h => by
      simp only [validIdx_cons, Bool.and_eq_true] at h
      simp [validIdx_length h.2]
  | [], _ :: _, h => by simp [validIdx] at h
  | _ :: _, [], h => by simp [validIdx] at h

theorem validIdx_getD : ∀ (s idx : List ℕ) (p : ℕ), validIdx s idx = true →
    p < s.length → idx.getD p 0 < s.getD p 0
  | [], [], p, _, hp => absurd hp (by simp)
  | d :: s, i :: idx, 0, h, _ => by
      simp only [validIdx_cons, Bool.and_eq_true, decide_eq_true_eq] at h
      simpa using h.1
  | d :: s, i :: idx, p + 1, h, hp => by
      simp only [validIdx_cons, Bool.and_eq_true, decide_eq_true_eq] at h
      simpa using validIdx_getD s idx p h.2 (by simpa using hp)
  | [], _ :: _, _, h, _ => by simp [validIdx] at h
  | _ :: _, [], _, h, _ => by simp [validIdx] at h

theorem validIdx_set : ∀ (s idx : List ℕ) (p v : ℕ), validIdx s idx = true →
    v < s.getD p 0 → validIdx s (idx.set p v) = true
  | [], [], p, v, _, hv => absurd hv (by simp)
  | d :: s, i :: idx, 0, v, h, hv => by
      simp only [validIdx_cons, Bool.and_eq_true, decide_eq_true_eq] at h
      simp only [List.set, validIdx_cons, Bool.and_eq_true, decide_eq_true_eq]
      exact ⟨by simpa using hv, h.2⟩
  | d :: s, i :: idx, p + 1, v, h, hv => by
      simp only [validIdx_cons, Bool.and_eq_true, decide_eq_true_eq] at h
      simp only [List.set, validIdx_cons, Bool.and_eq_true, decide_eq_true_eq]
      exact ⟨h.1, validIdx_set s idx p v h.2 (by simpa using hv)⟩
  | [], _ :: _, _, _, h, _ => by simp [validIdx] at h
  | _ :: _, [], _, _, h, _ => by simp [validIdx] at h

theorem validIdx_set_shape : ∀ (s idx : List ℕ) (p v : ℕ), validIdx s idx = true →
    idx.getD p 0 < v → validIdx (s.set p v) idx = true
  | [], [], _, _, _, _ => rfl
  | d :: s, i :: idx, 0, v, h, hv => by
      simp only [validIdx_cons, Bool.and_eq_true, decide_eq_true_eq] at h
      simp only [List.set, validIdx_cons, Bool.and_eq_true, decide_eq_true_eq]
      exact ⟨by simpa using hv, h.2⟩
  | d :: s, i :: idx, p + 1, v, h, hv => by
      simp only [validIdx_cons, Bool.and_eq_true, decide_eq_true_eq] at h
      simp only [List.set, validIdx_cons, Bool.and_eq_true, decide_eq_true_eq]
      exact ⟨h.1, validIdx_set_shape s idx p v h.2 (by simpa using hv)⟩
  | [], _ :: _, _, _, h, _ => by simp [validIdx] at h
  | _ :: _, [], _, _, h, _ => by simp [validIdx] at h

theorem set_getD_self : ∀ (l : List ℕ) (p v : ℕ), p < l.length →
    (l.set p v).getD p 0 = v
  | [], p, v, h => absurd h (by simp)
  | _ :: l, 0, v, _ => rfl
  | _ :: l, p + 1, v, h => set_getD_self l p v (by simpa using h)

theorem set_getD_ne : ∀ (l : List ℕ) (p q v : ℕ), p ≠ q →
    (l.set p v).getD q 0 = l.getD q 0
  | [], _, _, _, _ => by simp
  | _ :: l, 0, 0, v, h => absurd rfl h
  | _ :: l, 0, q + 1, v, _ => by simp [List.set]
  | _ :: l, p + 1, 0, v, _ => by simp [List.set]
  | a :: l, p + 1, q + 1, v, h => by
      simpa [List.set] using set_getD_ne l p q v (fun hc => h (by simp [hc]))

theorem set_set_self : ∀ (l : List ℕ) (p a b : ℕ), (l.set p a).set p b = l.set p b
  | [], _, _, _ => rfl
  | _ :: l, 0, _, _ => rfl
  | x :: l, p + 1, a, b => by simp [List.set, set_set_self l p a b]

theorem eraseIdx_set : ∀ (l : List ℕ) (p v : ℕ), (l.set p v).eraseIdx p = l.eraseIdx p
  | [], _, _ => rfl
  | _ :: l, 0, _ => rfl
  | x :: l, p + 1, v => by simp [List.set, List.eraseIdx, eraseIdx_set l p v]

theorem insertIdx_eraseIdx (l : List ℕ) (p v : ℕ) (hp : p < l.length) :
    (l.eraseIdx p).insertIdx p v = l.set p v := by
  induction l generalizing p with
  | nil => simp at hp
  | cons a l ih =>
      cases p with
      | zero => rfl
      | succ p =>
          simp only [List.eraseIdx, List.set, List.insertIdx_succ_cons]
          rw [ih p (by simpa using hp)]

theorem set_getD_cancel : ∀ (l : List ℕ) (p : ℕ), p < l.length →
    l.set p (l.getD p 0) = l
  | [], p, h => absurd h (by simp)
  | a :: l, 0, _ => rfl
  | a :: l, p + 1, h => by
      have ih := set_getD_cancel l p (by simpa using h)
      simp only [List.getD_cons_succ, List.set]
      rw [ih]

theorem length_set_eq (l : List ℕ) (p v : ℕ) : (l.set p v).length = l.length :=
  List.length_set l p v

/-- A shaped tensor: shape plus a total data function on index lists.
Only values at valid indices are meaningful. -/
structure Tensor (α : Type) where
  shape : List ℕ
  data : List ℕ → α

namespace Tensor

variable {α β γ : Type}

/-- Position of the channel axis (third from last), matching `shape[-3]`. -/
def chanPos (t : Tensor α) : ℕ := t.shape.length - 3

/-- Size of the channel axis, matching Python's `image.shape[-3]`. -/
def channelSize (t : Tensor α) : ℕ := t.shape.getD (t.shape.length - 3) 0

/-- Elementwise unary operation. -/
def map (f : α → β) (t : Tensor α) : Tensor β := ⟨t.shape, fun i => f (t.data i)⟩

/-- Elementwise binary operation on same-shaped tensors. -/
def zipWith (f : α → β → γ) (t : Tensor α) (u : Tensor β) : Tensor γ :=
  ⟨t.shape, fun i => f (t.data i) (u.data i)⟩

/-- `t[..., c, :, :]`: rank-reducing selection of channel `c`. -/
def selectChannel (t : Tensor α) (c : ℕ) : Tensor α :=
  ⟨t.shape.eraseIdx (t.shape.length - 3),
   fun idx => t.data (idx.insertIdx (t.shape.length - 3) c)⟩

/-- `t[..., c:c+1, :, :]`: rank-preserving slice of one channel. -/
def sliceChannel (t : Tensor α) (c : ℕ) : Tensor α :=
  ⟨t.shape.set (t.shape.length - 3) 1,
   fun idx => t.data (idx.set (t.shape.length - 3) (idx.getD (t.shape.length - 3) 0 + c))⟩

/-- `torch.stack [t0, t1, t2]` along axis `p` (the new channel axis). -/
def stack3 (p : ℕ) (t0 t1 t2 : Tensor α) : Tensor α :=
  ⟨t0.shape.insertIdx p 3,
   fun idx =>
     if idx.getD p 0 = 0 then t0.data (idx.eraseIdx p)
     else if idx.getD p 0 = 1 then t1.data (idx.eraseIdx p)
     else t2.data (idx.eraseIdx p)⟩

/-- `torch.cat [t0, t1, t2]` along the channel axis. -/
def concat3 (t0 t1 t2 : Tensor α) : Tensor α :=
  ⟨t0.shape.set (t0.shape.length - 3)
     (t0.channelSize + t1.channelSize + t2.channelSize),
   fun idx =>
     let p := t0.shape.length - 3
     let c := idx.getD p 0
     if c < t0.channelSize then t0.data (idx.set p c)
     else if c < t0.channelSize + t1.channelSize then
       t1.data (idx.set p (c - t0.channelSize))
     else t2.data (idx.set p (c - t0.channelSize - t1.channelSize))⟩

/-- `torch.flip` along the channel axis (used by `bgr_to_rgb`). -/
def flipChannel (t : Tensor α) : Tensor α :=
  ⟨t.shape,
   fun idx =>
     let p := t.shape.length - 3
     t.data (idx.set p (t.channelSize - 1 - idx.getD p 0))⟩

end Tensor

/-- Error taxonomy of the converters: `shapeError` models the Python
`ValueError` raised on a bad channel axis, `typeError` the `TypeError`
raised on an unsupported dtype. -/
inductive ColorError
  | shapeError
  | typeError
deriving DecidableEq

/-- Torch numeric kinds relevant to `rgb_to_grayscale`'s dtype dispatch. -/
inductive DType
  | uint8
  | float16
  | float32
  | float64
  | int32
  | int64
deriving DecidableEq

/-- Scalar carrier of each dtype: `uint8` is exact 8-bit wrap-around
arithmetic (`ZMod 256`); floating dtypes are modelled by the reals;
the remaining integer dtypes (which only ever hit the type-error path)
by the integers. -/
abbrev ScalarOf : DType → Type
  | .uint8 => ZMod 256
  | .float16 => ℝ
  | .float32 => ℝ
  | .float64 => ℝ
  | .int32 => ℤ
  | .int64 => ℤ

/-- Multiplication in the arithmetic of a dtype. -/
def sMul : (dt : DType) → ScalarOf dt → ScalarOf dt → ScalarOf dt
  | .uint8 => (· * ·)
  | .float16 => (· * ·)
  | .float32 => (· * ·)
  | .float64 => (· * ·)
  | .int32 => (· * ·)
  | .int64 => (· * ·)

/-- Addition in the arithmetic of a dtype. -/
def sAdd : (dt : DType) → ScalarOf dt → ScalarOf dt → ScalarOf dt
  | .uint8 => (· + ·)
  | .float16 => (· + ·)
  | .float32 => (· + ·)
  | .float64 => (· + ·)
  | .int32 => (· + ·)
  | .int64 => (· + ·)

/-- Default weight selection of `rgb_to_grayscale` (gray.ipynb): uint8
images get `[76, 150, 29]` created with uint8 dtype, floating-point images
get `[0.299, 0.587, 0.114]`, anything else raises `TypeError`. -/
noncomputable def defaultWeights : (dt : DType) → Except ColorError (Fin 3 → ScalarOf dt)
  | .uint8 => .ok ![(76 : ZMod 256), 150, 29]
  | .float16 => .ok ![(0.299 : ℝ), 0.587, 0.114]
  | .float32 => .ok ![(0.299 : ℝ), 0.587, 0.114]
  | .float64 => .ok ![(0.299 : ℝ), 0.587, 0.114]
  | .int32 => .error .typeError
  | .int64 => .error .typeError

/-- `grayscale_to_rgb` (gray.ipynb): checks the channel axis is 1, then
concatenates three copies of the image along the channel axis. -/
def grayscale_to_rgb (image : Tensor α) : Except ColorError (Tensor α) :=
  if image.shape.length < 3 ∨ image.channelSize ≠ 1 then .error .shapeError
  else .ok (Tensor.concat3 image image image)

/-- `rgb_to_grayscale` (gray.ipynb): checks the channel axis is 3, resolves
the weights (supplied ones are used as-is, otherwise dtype-dispatched
defaults), then returns `w_r*r + w_g*g + w_b*b` on the sliced channels. -/
noncomputable def rgb_to_grayscale (dt : DType) (image : Tensor (ScalarOf dt))
    (rgb_weights : Option (Fin 3 → ScalarOf dt)) : Except ColorError (Tensor (ScalarOf dt)) :=
  if image.shape.length < 3 ∨ image.channelSize ≠ 3 then .error .shapeError
  else
    match (match rgb_weights with
           | some w => Except.ok w
           | none => defaultWeights dt) with
    | .error e => .error e
    | .ok w =>
        let r := image.sliceChannel 0
        let g := image.sliceChannel 1
        let b := image.sliceChannel 2
        .ok (Tensor.zipWith (sAdd dt)
              (Tensor.zipWith (sAdd dt) (r.map (sMul dt (w 0))) (g.map (sMul dt (w 1))))
              (b.map (sMul dt (w 2))))

/-- Modelled from the spec: `bgr_to_rgb` (kornia.color.rgb, not in src/)
"internally reorders channels B,G,R → R,G,B (channel-axis reversal)". -/
def bgr_to_rgb (image : Tensor α) : Tensor α := image.flipChannel

/-- `bgr_to_grayscale` (gray.ipynb): checks the channel axis is 3, flips
B,G,R to R,G,B, then delegates to `rgb_to_grayscale` with default weights. -/
noncomputable def bgr_to_grayscale (dt : DType) (image : Tensor (ScalarOf dt)) :
    Except ColorError (Tensor (ScalarOf dt)) :=
  if image.shape.length < 3 ∨ image.channelSize ≠ 3 then .error .shapeError
  else rgb_to_grayscale dt (bgr_to_rgb image) none

/-- Data of an `ok` tensor result at an index (default otherwise). -/
def okData : Except ColorError (Tensor α) → List ℕ → α → α
  | .ok t, idx, _ => t.data idx
  | .error _, _, d => d

/-- Shape of an `ok` tensor result. -/
def okShape (e : Except ColorError (Tensor α)) : Except ColorError (List ℕ) :=
  e.map Tensor.shape

/-- Modelled from the spec: `rgb_to_linear_rgb` (kornia.color.rgb, not in
src/), the sRGB decode step — "for value v ≤ 0.04045, result = v/12.92;
else result = ((v+0.055)/1.055)^2.4". -/
noncomputable def srgbToLinear (v : ℝ) : ℝ :=
  if v ≤ 0.04045 then v / 12.92 else ((v + 0.055) / 1.055) ^ (2.4 : ℝ)

/-- Modelled from the spec: `linear_rgb_to_rgb` (kornia.color.rgb, not in
src/), the sRGB encode step — "for value v ≤ 0.0031308, result = 12.92·v;
else result = 1.055·v^(1/2.4) − 0.055". -/
noncomputable def linearToSrgb (u : ℝ) : ℝ :=
  if u ≤ 0.0031308 then 12.92 * u else 1.055 * u ^ ((1 : ℝ) / 2.4) - 0.055

/-- Modelled from the spec: the fixed forward sRGB→XYZ matrix of
`rgb_to_xyz` (kornia.color.xyz, not in src/); the spec fixes "per-pixel 3×3
matrix multiply against fixed forward/inverse sRGB↔XYZ matrices"; these are
the standard sRGB D65 forward coefficients. -/
noncomputable def rgbToXyzMat : Fin 3 → Fin 3 → ℝ :=
  ![![0.412453, 0.357580, 0.180423],
    ![0.212671, 0.715160, 0.072169],
    ![0.019334, 0.119193, 0.950227]]

/-- Determinant of the forward sRGB→XYZ matrix. -/
noncomputable def rgbToXyzDet : ℝ :=
  rgbToXyzMat 0 0 * (rgbToXyzMat 1 1 * rgbToXyzMat 2 2 - rgbToXyzMat 1 2 * rgbToXyzMat 2 1)
  - rgbToXyzMat 0 1 * (rgbToXyzMat 1 0 * rgbToXyzMat 2 2 - rgbToXyzMat 1 2 * rgbToXyzMat 2 0)
  + rgbToXyzMat 0 2 * (rgbToXyzMat 1 0 * rgbToXyzMat 2 1 - rgbToXyzMat 1 1 * rgbToXyzMat 2 0)

/-- Modelled from the spec: the fixed inverse XYZ→sRGB matrix of
`xyz_to_rgb` (kornia.color.xyz, not in src/): the exact inverse of the
forward matrix, written by the adjugate formula. -/
noncomputable def xyzToRgbMat : Fin 3 → Fin 3 → ℝ :=
  ![![ (rgbToXyzMat 1 1 * rgbToXyzMat 2 2 - rgbToXyzMat 1 2 * rgbToXyzMat 2 1) / rgbToXyzDet,
       -(rgbToXyzMat 0 1 * rgbToXyzMat 2 2 - rgbToXyzMat 0 2 * rgbToXyzMat 2 1) / rgbToXyzDet,
       (rgbToXyzMat 0 1 * rgbToXyzMat 1 2 - rgbToXyzMat 0 2 * rgbToXyzMat 1 1) / rgbToXyzDet],
    ![ -(rgbToXyzMat 1 0 * rgbToXyzMat 2 2 - rgbToXyzMat 1 2 * rgbToXyzMat 2 0) / rgbToXyzDet,
       (rgbToXyzMat 0 0 * rgbToXyzMat 2 2 - rgbToXyzMat 0 2 * rgbToXyzMat 2 0) / rgbToXyzDet,
       -(rgbToXyzMat 0 0 * rgbToXyzMat 1 2 - rgbToXyzMat 0 2 * rgbToXyzMat 1 0) / rgbToXyzDet],
    ![ (rgbToXyzMat 1 0 * rgbToXyzMat 2 1 - rgbToXyzMat 1 1 * rgbToXyzMat 2 0) / rgbToXyzDet,
       -(rgbToXyzMat 0 0 * rgbToXyzMat 2 1 - rgbToXyzMat 0 1 * rgbToXyzMat 2 0) / rgbToXyzDet,
       (rgbToXyzMat 0 0 * rgbToXyzMat 1 1 - rgbToXyzMat 0 1 * rgbToXyzMat 1 0) / rgbToXyzDet]]

/-- D65 / Observer 2 white point used by lab.ipynb. -/
noncomputable def xyzRefWhite : Fin 3 → ℝ := ![0.95047, 1.0, 1.08883]

/-- Lab forward nonlinearity as computed in `rgb_to_lab` (lab.ipynb):
`where(t > 0.008856, clamp(t, min=0.008856) ^ (1/3), 7.787*t + 4/29)`. -/
noncomputable def labFwdF (t : ℝ) : ℝ :=
  if t > 0.008856 then max 0.008856 t ^ ((1 : ℝ) / 3) else 7.787 * t + 4.0 / 29.0

/-- Lab inverse nonlinearity as computed in `lab_to_rgb` (lab.ipynb):
`where(f > 0.2068966, f ^ 3, (f - 4/29) / 7.787)`. -/
noncomputable def labInvF (f : ℝ) : ℝ :=
  if f > 0.2068966 then f ^ (3 : ℕ) else (f - 4.0 / 29.0) / 7.787

/-- Clamp channel index to `Fin 3` (identity on valid channel indices). -/
def toFin3 (n : ℕ) : Fin 3 := ⟨min n 2, by omega⟩

namespace Tensor

/-- Broadcast division by a per-channel vector (`torch.div` against a
`(3,1,1)`-shaped constant). -/
noncomputable def divChannelVec (w : Fin 3 → ℝ) (t : Tensor ℝ) : Tensor ℝ :=
  ⟨t.shape, fun idx => t.data idx / w (toFin3 (idx.getD (t.shape.length - 3) 0))⟩

/-- Broadcast multiplication by a per-channel vector. -/
noncomputable def mulChannelVec (w : Fin 3 → ℝ) (t : Tensor ℝ) : Tensor ℝ :=
  ⟨t.shape, fun idx => t.data idx * w (toFin3 (idx.getD (t.shape.length - 3) 0))⟩

/-- Per-pixel 3×3 matrix multiply along the channel axis. -/
noncomputable def matmulChannel (M : Fin 3 → Fin 3 → ℝ) (t : Tensor ℝ) : Tensor ℝ :=
  ⟨t.shape, fun idx =>
    ∑ j : Fin 3, M (toFin3 (idx.getD (t.shape.length - 3) 0)) j *
      t.data (idx.set (t.shape.length - 3) (j : ℕ))⟩

/-- `torch.where(base > τ, a, b)`, elementwise. -/
noncomputable def whereGt (base : Tensor ℝ) (τ : ℝ) (a b : Tensor ℝ) : Tensor ℝ :=
  ⟨a.shape, fun idx => if base.data idx > τ then a.data idx else b.data idx⟩

end Tensor

/-- Intermediate tensor `xyz_int` of `rgb_to_lab` (lab.ipynb): sRGB→linear,
linear→XYZ, divide by the D65 white point, then
`where(t > 0.008856, clamp(t, min=0.008856)^(1/3), 7.787·t + 4/29)`. -/
noncomputable def labXyzInt (image : Tensor ℝ) : Tensor ℝ :=
  let lin_rgb := image.map srgbToLinear
  let xyz_im := lin_rgb.matmulChannel rgbToXyzMat
  let xyz_normalized := xyz_im.divChannelVec xyzRefWhite
  let power := xyz_normalized.map (fun t => max 0.008856 t ^ ((1 : ℝ) / 3))
  let scale := xyz_normalized.map (fun t => 7.787 * t + 4.0 / 29.0)
  Tensor.whereGt xyz_normalized 0.008856 power scale

/-- `rgb_to_lab` (lab.ipynb): shape check, then stack
`[116·f(Y)−16, 500·(f(X)−f(Y)), 200·(f(Y)−f(Z))]` of the `xyz_int`
channels along the channel axis. -/
noncomputable def rgb_to_lab (image : Tensor ℝ) : Except ColorError (Tensor ℝ) :=
  if image.shape.length < 3 ∨ image.channelSize ≠ 3 then .error .shapeError
  else
    let xyz_int := labXyzInt image
    let x := xyz_int.selectChannel 0
    let y := xyz_int.selectChannel 1
    let z := xyz_int.selectChannel 2
    let L := y.map (fun v => 116.0 * v - 16.0)
    let a := (Tensor.zipWith (· - ·) x y).map (fun v => 500.0 * v)
    let b := (Tensor.zipWith (· - ·) y z).map (fun v => 200.0 * v)
    .ok (Tensor.stack3 (image.shape.length - 3) L a b)

/-- Intermediate tensor `fxyz` of `lab_to_rgb` (lab.ipynb):
`fy=(L+16)/116`, `fx=a/500+fy`, `fz=fy−b/200` clamped at 0, stacked. -/
noncomputable def labFxyz (image : Tensor ℝ) : Tensor ℝ :=
  let L := image.selectChannel 0
  let a := image.selectChannel 1
  let b := image.selectChannel 2
  let fy := L.map (fun v => (v + 16.0) / 116.0)
  let fx := Tensor.zipWith (fun av fyv => av / 500.0 + fyv) a fy
  let fz0 := Tensor.zipWith (fun fyv bv => fyv - bv / 200.0) fy b
  let fz := fz0.map (fun v => max 0 v)
  Tensor.stack3 (image.shape.length - 3) fx fy fz

/-- `lab_to_rgb` (lab.ipynb): shape check, `fxyz` build, piecewise inverse
nonlinearity `where(f > 0.2068966, f^3, (f−4/29)/7.787)`, multiply by the
white point, XYZ→linear RGB, linear→sRGB, optional clamp to `[0,1]`. -/
noncomputable def lab_to_rgb (image : Tensor ℝ) (clip : Bool) : Except ColorError (Tensor ℝ) :=
  if image.shape.length < 3 ∨ image.channelSize ≠ 3 then .error .shapeError
  else
    let fxyz := labFxyz image
    let power := fxyz.map (fun v => v ^ (3 : ℕ))
    let scale := fxyz.map (fun v => (v - 4.0 / 29.0) / 7.787)
    let xyz := Tensor.whereGt fxyz 0.2068966 power scale
    let xyz_im := xyz.mulChannelVec xyzRefWhite
    let rgbs_im := xyz_im.matmulChannel xyzToRgbMat
    let rgb_im := rgbs_im.map linearToSrgb
    if clip then .ok (rgb_im.map (fun v => min 1 (max 0 v)))
    else .ok rgb_im

/-- Per-pixel form of `rgb_to_lab`, used to state its pixelwise behavior. -/
noncomputable def rgbToLabPix (p : Fin 3 → ℝ) : Fin 3 → ℝ :=
  let lin : Fin 3 → ℝ := fun c => srgbToLinear (p c)
  let xyz : Fin 3 → ℝ := fun c => ∑ j : Fin 3, rgbToXyzMat c j * lin j
  let t : Fin 3 → ℝ := fun c => xyz c / xyzRefWhite c
  let f : Fin 3 → ℝ := fun c => labFwdF (t c)
  ![116.0 * f 1 - 16.0, 500.0 * (f 0 - f 1), 200.0 * (f 1 - f 2)]

/-- Per-pixel `[fx, fy, fz]` vector of `lab_to_rgb`:
`fy=(L+16)/116`, `fx=a/500+fy`, `fz=max 0 (fy−b/200)`. -/
noncomputable def labFPix (q : Fin 3 → ℝ) : Fin 3 → ℝ :=
  ![q 1 / 500.0 + (q 0 + 16.0) / 116.0,
    (q 0 + 16.0) / 116.0,
    max 0 ((q 0 + 16.0) / 116.0 - q 2 / 200.0)]

/-- Per-pixel form of `lab_to_rgb`, used to state its pixelwise behavior. -/
noncomputable def labToRgbPix (clip : Bool) (q : Fin 3 → ℝ) : Fin 3 → ℝ :=
  let f := labFPix q
  let xyz : Fin 3 → ℝ := fun c => labInvF (f c) * xyzRefWhite c
  let lin : Fin 3 → ℝ := fun c => ∑ j : Fin 3, xyzToRgbMat c j * xyz j
  let rgb : Fin 3 → ℝ := fun c => linearToSrgb (lin c)
  if clip then fun c => min 1 (max 0 (rgb c)) else rgb

section GrayBridges

variable {α : Type}

theorem toFin3_zero : toFin3 0 = 0 := rfl

theorem toFin3_one : toFin3 1 = 1 := rfl

theorem toFin3_two : toFin3 2 = 2 := rfl

theorem grayscale_to_rgb_eq (image : Tensor α) (h3 : 3 ≤ image.shape.length)
    (hc : image.channelSize = 1) :
    grayscale_to_rgb image = .ok (Tensor.concat3 image image image) := by
  have hcond : ¬(image.shape.length < 3 ∨ image.channelSize ≠ 1) := by
    push_neg; exact ⟨by omega, hc⟩
  simp [grayscale_to_rgb, hcond]

theorem concat3_self_shape (image : Tensor α) (hc : image.channelSize = 1) :
    (Tensor.concat3 image image image).shape =
      image.shape.set (image.shape.length - 3) 3 := by
  simp [Tensor.concat3, hc]

theorem concat3_self_data (image : Tensor α) (h3 : 3 ≤ image.shape.length)
    (hc : image.channelSize = 1) (idx : List ℕ)
    (hv : validIdx (image.shape.set (image.shape.length - 3) 3) idx = true) :
    (Tensor.concat3 image image image).data idx =
      image.data (idx.set (image.shape.length - 3) 0) := by
  have hp : image.shape.length - 3 < image.shape.length := by omega
  have hgt : (image.shape.set (image.shape.length - 3) 3).getD (image.shape.length - 3) 0 = 3 :=
    set_getD_self _ _ _ hp
  have hcc : idx.getD (image.shape.length - 3) 0 < 3 := by
    have hlt := validIdx_getD _ idx (image.shape.length - 3) hv
      (by rw [length_set_eq]; omega)
    rwa [hgt] at hlt
  have hcases : idx.getD (image.shape.length - 3) 0 = 0 ∨
      idx.getD (image.shape.length - 3) 0 = 1 ∨
      idx.getD (image.shape.length - 3) 0 = 2 := by omega
  rcases hcases with h0 | h1 | h2
  · simp only [Tensor.concat3, hc, h0]; norm_num
  · simp only [Tensor.concat3, hc, h1]; norm_num
  · simp only [Tensor.concat3, hc, h2]; norm_num

theorem rgb_to_grayscale_eq (dt : DType) (image : Tensor (ScalarOf dt))
    (wopt : Option (Fin 3 → ScalarOf dt)) (w : Fin 3 → ScalarOf dt)
    (h3 : 3 ≤ image.shape.length) (hc : image.channelSize = 3)
    (hw : (match wopt with
           | some u => Except.ok u
           | none => defaultWeights dt) = .ok w) :
    rgb_to_grayscale dt image wopt =
      .ok (Tensor.zipWith (sAdd dt)
            (Tensor.zipWith (sAdd dt)
              ((image.sliceChannel 0).map (sMul dt (w 0)))
              ((image.sliceChannel 1).map (sMul dt (w 1))))
            ((image.sliceChannel 2).map (sMul dt (w 2)))) := by
  have hcond : ¬(image.shape.length < 3 ∨ image.channelSize ≠ 3) := by
    push_neg; exact ⟨by omega, hc⟩
  rw [rgb_to_grayscale.eq_def, if_neg hcond, hw]

theorem rgb_to_grayscale_shape (dt : DType) (image : Tensor (ScalarOf dt))
    (wopt : Option (Fin 3 → ScalarOf dt)) (w : Fin 3 → ScalarOf dt)
    (h3 : 3 ≤ image.shape.length) (hc : image.channelSize = 3)
    (hw : (match wopt with
           | some u => Except.ok u
           | none => defaultWeights dt) = .ok w) :
    okShape (rgb_to_grayscale dt image wopt) =
      .ok (image.shape.set (image.shape.length - 3) 1) := by
  rw [rgb_to_grayscale_eq dt image wopt w h3 hc hw]
  simp [okShape, Tensor.zipWith, Tensor.map, Tensor.sliceChannel, Except.map]

theorem rgb_to_grayscale_data (dt : DType) (image : Tensor (ScalarOf dt))
    (wopt : Option (Fin 3 → ScalarOf dt)) (w : Fin 3 → ScalarOf dt)
    (h3 : 3 ≤ image.shape.length) (hc : image.channelSize = 3)
    (hw : (match wopt with
           | some u => Except.ok u
           | none => defaultWeights dt) = .ok w)
    (idx : List ℕ) (d : ScalarOf dt)
    (hv : validIdx (image.shape.set (image.shape.length - 3) 1) idx = true) :
    okData (rgb_to_grayscale dt image wopt) idx d =
      sAdd dt
        (sAdd dt (sMul dt (w 0) (image.data (idx.set (image.shape.length - 3) 0)))
                 (sMul dt (w 1) (image.data (idx.set (image.shape.length - 3) 1))))
        (sMul dt (w 2) (image.data (idx.set (image.shape.length - 3) 2))) := by
  have hp : image.shape.length - 3 < image.shape.length := by omega
  have hgt : (image.shape.set (image.shape.length - 3) 1).getD (image.shape.length - 3) 0 = 1 :=
    set_getD_self _ _ _ hp
  have hcc : idx.getD (image.shape.length - 3) 0 < 1 := by
    have hlt := validIdx_getD _ idx (image.shape.length - 3) hv
      (by rw [length_set_eq]; omega)
    rwa [hgt] at hlt
  have h0 : idx.getD (image.shape.length - 3) 0 = 0 := by omega
  have h0' : (idx[image.shape.length - 3]?).getD 0 = 0 := by
    simpa [List.getD] using h0
  rw [rgb_to_grayscale_eq dt image wopt w h3 hc hw]
  simp [okData, Tensor.zipWith, Tensor.map, Tensor.sliceChannel, h0']

end GrayBridges

section LabBridges

theorem toFin3_coe (j : Fin 3) : toFin3 (j : ℕ) = j := by
  apply Fin.ext
  simp only [toFin3]
  omega

theorem labFwdF_spec (t : ℝ) : labFwdF t =
    if t > 0.008856 then t ^ ((1 : ℝ) / 3) else 7.787 * t + 4.0 / 29.0 := by
  unfold labFwdF
  split
  · rw [max_eq_right (le_of_lt (by assumption))]
  · rfl

theorem labXyzInt_shape (image : Tensor ℝ) : (labXyzInt image).shape = image.shape := rfl

theorem labXyzInt_data (image : Tensor ℝ) (idx : List ℕ)
    (hplt : image.shape.length - 3 < idx.length) (j : ℕ) :
    (labXyzInt image).data (idx.set (image.shape.length - 3) j) =
      labFwdF ((∑ k : Fin 3, rgbToXyzMat (toFin3 j) k *
          srgbToLinear (image.data (idx.set (image.shape.length - 3) (k : ℕ)))) /
        xyzRefWhite (toFin3 j)) := by
  have hset : ∀ v, (idx.set (image.shape.length - 3) v).getD (image.shape.length - 3) 0 = v :=
    fun v => set_getD_self idx _ v hplt
  simp only [labXyzInt, Tensor.whereGt, Tensor.map, Tensor.divChannelVec,
    Tensor.matmulChannel, hset, set_set_self, labFwdF]

theorem labFxyz_shape (image : Tensor ℝ) (hp : image.shape.length - 3 < image.shape.length) :
    (labFxyz image).shape = image.shape.set (image.shape.length - 3) 3 := by
  simp only [labFxyz, Tensor.stack3, Tensor.zipWith, Tensor.map, Tensor.selectChannel]
  exact insertIdx_eraseIdx image.shape _ 3 hp

theorem labFxyz_data (image : Tensor ℝ) (idx : List ℕ)
    (hplt : image.shape.length - 3 < idx.length) :
    ∀ j : ℕ, j < 3 →
      (labFxyz image).data (idx.set (image.shape.length - 3) j) =
        labFPix (fun k => image.data (idx.set (image.shape.length - 3) (k : ℕ))) (toFin3 j) := by
  have hset : ∀ v, (idx.set (image.shape.length - 3) v).getD (image.shape.length - 3) 0 = v :=
    fun v => set_getD_self idx _ v hplt
  intro j hj
  rcases (by omega : j = 0 ∨ j = 1 ∨ j = 2) with h0 | h1 | h2
  · subst h0
    simp only [labFxyz, Tensor.stack3, Tensor.zipWith, Tensor.map, Tensor.selectChannel,
      hset, eraseIdx_set, labFPix]
    norm_num
    rw [insertIdx_eraseIdx idx _ 1 hplt, insertIdx_eraseIdx idx _ 0 hplt]
    simp [toFin3_zero]
  · subst h1
    simp only [labFxyz, Tensor.stack3, Tensor.zipWith, Tensor.map, Tensor.selectChannel,
      hset, eraseIdx_set, labFPix]
    norm_num
    rw [insertIdx_eraseIdx idx _ 0 hplt]
    simp [toFin3_one]
  · subst h2
    simp only [labFxyz, Tensor.stack3, Tensor.zipWith, Tensor.map, Tensor.selectChannel,
      hset, eraseIdx_set, labFPix]
    norm_num
    rw [insertIdx_eraseIdx idx _ 0 hplt, insertIdx_eraseIdx idx _ 2 hplt]
    simp [toFin3_two]

theorem set_channel3_cancel (s : List ℕ) (n : ℕ) (hgt : s.getD (s.length - n) 0 = 3)
    (hp : s.length - n < s.length) : s.set (s.length - n) 3 = s := by
  rw [← hgt]
  exact set_getD_cancel s _ hp

theorem rgb_to_lab_shape (image : Tensor ℝ) (h3 : 3 ≤ image.shape.length)
    (hc : image.channelSize = 3) :
    okShape (rgb_to_lab image) = .ok image.shape := by
  have hcond : ¬(image.shape.length < 3 ∨ image.channelSize ≠ 3) := by
    push_neg; exact ⟨by omega, hc⟩
  have hp : image.shape.length - 3 < image.shape.length := by omega
  have hc' : image.shape.getD (image.shape.length - 3) 0 = 3 := hc
  simp only [rgb_to_lab, if_neg hcond, okShape, Except.map, Tensor.stack3,
    Tensor.map, Tensor.zipWith, Tensor.selectChannel, labXyzInt_shape]
  rw [insertIdx_eraseIdx image.shape _ 3 hp, set_channel3_cancel image.shape 3 hc' hp]

theorem rgb_to_lab_data (image : Tensor ℝ) (h3 : 3 ≤ image.shape.length)
    (hc : image.channelSize = 3) (idx : List ℕ) (d : ℝ)
    (hv : validIdx image.shape idx = true) :
    okData (rgb_to_lab image) idx d =
      rgbToLabPix (fun k => image.data (idx.set (image.shape.length - 3) (k : ℕ)))
        (toFin3 (idx.getD (image.shape.length - 3) 0)) := by
  have hcond : ¬(image.shape.length < 3 ∨ image.channelSize ≠ 3) := by
    push_neg; exact ⟨by omega, hc⟩
  have hp : image.shape.length - 3 < image.shape.length := by omega
  have hc' : image.shape.getD (image.shape.length - 3) 0 = 3 := hc
  have hlen : idx.length = image.shape.length := validIdx_length hv
  have hplt : image.shape.length - 3 < idx.length := by omega
  have hcc : idx.getD (image.shape.length - 3) 0 < 3 := by
    have hlt := validIdx_getD _ idx (image.shape.length - 3) hv hp
    rwa [hc'] at hlt
  have hX := labXyzInt_data image idx hplt
  rcases (by omega : idx.getD (image.shape.length - 3) 0 = 0 ∨
      idx.getD (image.shape.length - 3) 0 = 1 ∨
      idx.getD (image.shape.length - 3) 0 = 2) with h0 | h1 | h2
  · simp only [rgb_to_lab, if_neg hcond, okData, Tensor.stack3, Tensor.map,
      Tensor.zipWith, Tensor.selectChannel, labXyzInt_shape, h0]
    norm_num
    rw [insertIdx_eraseIdx idx _ 1 hplt, hX 1]
    simp only [rgbToLabPix, h0, toFin3_zero, toFin3_one, Matrix.cons_val_zero,
      Matrix.cons_val_one, Matrix.head_cons]
    norm_num
  · simp only [rgb_to_lab, if_neg hcond, okData, Tensor.stack3, Tensor.map,
      Tensor.zipWith, Tensor.selectChannel, labXyzInt_shape, h1]
    norm_num
    rw [insertIdx_eraseIdx idx _ 0 hplt, insertIdx_eraseIdx idx _ 1 hplt, hX 0, hX 1]
    simp only [rgbToLabPix, h1, toFin3_zero, toFin3_one, Matrix.cons_val_zero,
      Matrix.cons_val_one, Matrix.head_cons]
    norm_num
  · simp only [rgb_to_lab, if_neg hcond, okData, Tensor.stack3, Tensor.map,
      Tensor.zipWith, Tensor.selectChannel, labXyzInt_shape, h2]
    norm_num
    rw [insertIdx_eraseIdx idx _ 1 hplt, insertIdx_eraseIdx idx _ 2 hplt, hX 1, hX 2]
    simp only [rgbToLabPix, h2, toFin3_one, toFin3_two, Matrix.cons_val_zero,
      Matrix.cons_val_one, Matrix.head_cons, Matrix.cons_val_two, Matrix.tail_cons]
    norm_num

theorem lab_to_rgb_shape (image : Tensor ℝ) (clip : Bool) (h3 : 3 ≤ image.shape.length)
    (hc : image.channelSize = 3) :
    okShape (lab_to_rgb image clip) = .ok image.shape := by
  have hcond : ¬(image.shape.length < 3 ∨ image.channelSize ≠ 3) := by
    push_neg; exact ⟨by omega, hc⟩
  have hp : image.shape.length - 3 < image.shape.length := by omega
  have hc' : image.shape.getD (image.shape.length - 3) 0 = 3 := hc
  have hFS : (labFxyz image).shape = image.shape.set (image.shape.length - 3) 3 :=
    labFxyz_shape image hp
  cases clip <;>
    simp only [lab_to_rgb, if_neg hcond, okShape, Except.map, Tensor.map,
      Tensor.matmulChannel, Tensor.mulChannelVec, Tensor.whereGt, hFS,
      Bool.false_eq_true, if_false, if_true] <;>
    rw [set_channel3_cancel image.shape 3 hc' hp]

theorem lab_to_rgb_data (image : Tensor ℝ) (clip : Bool) (h3 : 3 ≤ image.shape.length)
    (hc : image.channelSize = 3) (idx : List ℕ) (d : ℝ)
    (hv : validIdx image.shape idx = true) :
    okData (lab_to_rgb image clip) idx d =
      labToRgbPix clip (fun k => image.data (idx.set (image.shape.length - 3) (k : ℕ)))
        (toFin3 (idx.getD (image.shape.length - 3) 0)) := by
  have hcond : ¬(image.shape.length < 3 ∨ image.channelSize ≠ 3) := by
    push_neg; exact ⟨by omega, hc⟩
  have hp : image.shape.length - 3 < image.shape.length := by omega
  have hlen : idx.length = image.shape.length := validIdx_length hv
  have hplt : image.shape.length - 3 < idx.length := by omega
  have hFS : (labFxyz image).shape = image.shape.set (image.shape.length - 3) 3 :=
    labFxyz_shape image hp
  have hset : ∀ v, (idx.set (image.shape.length - 3) v).getD (image.shape.length - 3) 0 = v :=
    fun v => set_getD_self idx _ v hplt
  have hFD : ∀ j : ℕ, j < 3 →
      (labFxyz image).data (idx.set (image.shape.length - 3) j) =
        labFPix (fun k => image.data (idx.set (image.shape.length - 3) (k : ℕ))) (toFin3 j) :=
    labFxyz_data image idx hplt
  have hFD' : ∀ j : Fin 3,
      (labFxyz image).data (idx.set (image.shape.length - 3) (j : ℕ)) =
        labFPix (fun k => image.data (idx.set (image.shape.length - 3) (k : ℕ))) j := by
    intro j
    rw [hFD _ j.isLt, toFin3_coe]
  cases clip <;>
    simp only [lab_to_rgb, if_neg hcond, okData, Tensor.map, Tensor.matmulChannel,
      Tensor.mulChannelVec, Tensor.whereGt, hFS, length_set_eq, hset,
      Bool.false_eq_true, if_false, if_true, labToRgbPix, labInvF, hFD', toFin3_coe]

end LabBridges

section RoundTripNumerics

theorem rpow_third_cube {t : ℝ} (ht : 0 ≤ t) : (t ^ ((1 : ℝ) / 3)) ^ (3 : ℕ) = t := by
  rw [← Real.rpow_natCast (t ^ ((1 : ℝ) / 3)) 3, ← Real.rpow_mul ht]
  norm_num

theorem le_rpow_third {q t : ℝ} (hq : 0 ≤ q) (h : q ^ (3 : ℕ) ≤ t) : q ≤ t ^ ((1 : ℝ) / 3) := by
  have hq3 : (0 : ℝ) ≤ q ^ (3 : ℕ) := pow_nonneg hq 3
  have hid : ((q ^ (3 : ℕ) : ℝ)) ^ ((1 : ℝ) / 3) = q := by
    rw [← Real.rpow_natCast q 3, ← Real.rpow_mul hq]
    norm_num
  calc q = ((q ^ (3 : ℕ) : ℝ)) ^ ((1 : ℝ) / 3) := hid.symm
    _ ≤ t ^ ((1 : ℝ) / 3) := Real.rpow_le_rpow hq3 h (by norm_num)

theorem lt_rpow_third {q t : ℝ} (hq : 0 ≤ q) (h : q ^ (3 : ℕ) < t) : q < t ^ ((1 : ℝ) / 3) := by
  have hq3 : (0 : ℝ) ≤ q ^ (3 : ℕ) := pow_nonneg hq 3
  have hid : ((q ^ (3 : ℕ) : ℝ)) ^ ((1 : ℝ) / 3) = q := by
    rw [← Real.rpow_natCast q 3, ← Real.rpow_mul hq]
    norm_num
  calc q = ((q ^ (3 : ℕ) : ℝ)) ^ ((1 : ℝ) / 3) := hid.symm
    _ < t ^ ((1 : ℝ) / 3) := Real.rpow_lt_rpow hq3 h (by norm_num)

theorem rpow_third_le {t q : ℝ} (ht : 0 ≤ t) (hq : 0 ≤ q) (h : t ≤ q ^ (3 : ℕ)) :
    t ^ ((1 : ℝ) / 3) ≤ q := by
  have hid : ((q ^ (3 : ℕ) : ℝ)) ^ ((1 : ℝ) / 3) = q := by
    rw [← Real.rpow_natCast q 3, ← Real.rpow_mul hq]
    norm_num
  calc t ^ ((1 : ℝ) / 3) ≤ ((q ^ (3 : ℕ) : ℝ)) ^ ((1 : ℝ) / 3) :=
        Real.rpow_le_rpow ht h (by norm_num)
    _ = q := hid

theorem labFwdF_nonneg {t : ℝ} (ht : 0 ≤ t) : 0 ≤ labFwdF t := by
  unfold labFwdF
  split
  · exact Real.rpow_nonneg (le_max_of_le_left (by norm_num)) _
  · nlinarith

/-- Round trip of the Lab piecewise nonlinearity: applying the inverse
branch of `lab_to_rgb` to the forward branch of `rgb_to_lab` recovers the
normalized XYZ value within `1e-6` (the two thresholds `0.008856` and
`0.2068966` do not cut at exactly the same point). -/
theorem labInvF_labFwdF {t : ℝ} (ht0 : 0 ≤ t) : |labInvF (labFwdF t) - t| ≤ 0.000001 := by
  by_cases hτ : t > 0.008856
  · have hfwd : labFwdF t = t ^ ((1 : ℝ) / 3) := by
      unfold labFwdF
      rw [if_pos hτ, max_eq_right (le_of_lt hτ)]
    by_cases hk : ((0.2068966 : ℝ)) ^ (3 : ℕ) < t
    · have hf : (0.2068966 : ℝ) < t ^ ((1 : ℝ) / 3) := lt_rpow_third (by norm_num) hk
      have hval : labInvF (labFwdF t) = t := by
        rw [hfwd]
        unfold labInvF
        rw [if_pos hf, rpow_third_cube ht0]
      rw [hval, sub_self, abs_zero]
      norm_num
    · push_neg at hk
      have hfub : t ^ ((1 : ℝ) / 3) ≤ 0.2068966 := rpow_third_le ht0 (by norm_num) hk
      have hflb : (0.206892 : ℝ) ≤ t ^ ((1 : ℝ) / 3) := by
        apply le_rpow_third (by norm_num)
        calc ((0.206892 : ℝ)) ^ (3 : ℕ) ≤ 0.008856 := by norm_num
          _ ≤ t := le_of_lt hτ
      have hval : labInvF (labFwdF t) = (t ^ ((1 : ℝ) / 3) - 4.0 / 29.0) / 7.787 := by
        rw [hfwd]
        unfold labInvF
        rw [if_neg (not_lt.2 hfub)]
      rw [hval, abs_le]
      have hk' : t ≤ ((0.2068966 : ℝ)) ^ (3 : ℕ) := hk
      have hkv : ((0.2068966 : ℝ)) ^ (3 : ℕ) ≤ 0.00885646 := by norm_num
      have hlo : (0.0088559 : ℝ) ≤ ((0.206892 : ℝ) - 4.0 / 29.0) / 7.787 := by norm_num
      have hhi : ((0.2068966 : ℝ) - 4.0 / 29.0) / 7.787 ≤ 0.0088566 := by norm_num
      have hxlo : ((0.206892 : ℝ) - 4.0 / 29.0) / 7.787 ≤
          (t ^ ((1 : ℝ) / 3) - 4.0 / 29.0) / 7.787 :=
        (div_le_div_right (by norm_num)).2 (by linarith [hflb])
      have hxhi : (t ^ ((1 : ℝ) / 3) - 4.0 / 29.0) / 7.787 ≤
          ((0.2068966 : ℝ) - 4.0 / 29.0) / 7.787 :=
        (div_le_div_right (by norm_num)).2 (by linarith [hfub])
      constructor <;> linarith [hτ, hk', hkv, hlo, hhi, hxlo, hxhi]
  · push_neg at hτ
    have hfwd : labFwdF t = 7.787 * t + 4.0 / 29.0 := by
      unfold labFwdF
      rw [if_neg (not_lt.2 hτ)]
    have hub : 7.787 * t + 4.0 / 29.0 ≤ 0.2068966 := by nlinarith
    have hval : labInvF (labFwdF t) = t := by
      rw [hfwd]
      unfold labInvF
      rw [if_neg (not_lt.2 hub)]
      ring
    rw [hval, sub_self, abs_zero]
    norm_num

/-- Clamping to `[0,1]` never moves a value further from a target already
in `[0,1]`. -/
theorem clamp01_contract {x v : ℝ} (h0 : 0 ≤ v) (h1 : v ≤ 1) :
    |min 1 (max 0 x) - v| ≤ |x - v| := by
  rcases le_total x 0 with hx0 | hx0
  · rw [max_eq_left hx0, show min (1 : ℝ) 0 = 0 by norm_num,
      abs_of_nonpos (by linarith), abs_of_nonpos (by linarith)]
    linarith
  · rcases le_total x 1 with hx1 | hx1
    · rw [max_eq_right hx0, min_eq_right hx1]
    · rw [max_eq_right hx0, min_eq_left hx1,
        abs_of_nonneg (by linarith), abs_of_nonneg (by linarith)]
      linarith

theorem le_rpow_fr {q a : ℝ} (hq : 0 ≤ q) (ha : 0 ≤ a) (h : q ^ (12 : ℕ) ≤ a ^ (5 : ℕ)) :
    q ≤ a ^ ((1 : ℝ) / 2.4) := by
  have h1 : a ^ ((1 : ℝ) / 2.4) = ((a ^ (5 : ℕ) : ℝ)) ^ ((1 : ℝ) / 12) := by
    rw [← Real.rpow_natCast a 5, ← Real.rpow_mul ha]
    norm_num
  have h2 : q = ((q ^ (12 : ℕ) : ℝ)) ^ ((1 : ℝ) / 12) := by
    rw [← Real.rpow_natCast q 12, ← Real.rpow_mul hq]
    norm_num
  rw [h1, h2]
  exact Real.rpow_le_rpow (pow_nonneg hq 12) h (by norm_num)

theorem rpow_fr_le {a q : ℝ} (ha : 0 ≤ a) (hq : 0 ≤ q) (h : a ^ (5 : ℕ) ≤ q ^ (12 : ℕ)) :
    a ^ ((1 : ℝ) / 2.4) ≤ q := by
  have h1 : a ^ ((1 : ℝ) / 2.4) = ((a ^ (5 : ℕ) : ℝ)) ^ ((1 : ℝ) / 12) := by
    rw [← Real.rpow_natCast a 5, ← Real.rpow_mul ha]
    norm_num
  have h2 : q = ((q ^ (12 : ℕ) : ℝ)) ^ ((1 : ℝ) / 12) := by
    rw [← Real.rpow_natCast q 12, ← Real.rpow_mul hq]
    norm_num
  rw [h1, h2]
  exact Real.rpow_le_rpow (pow_nonneg ha 5) h (by norm_num)

theorem le_rpow_24 {q b : ℝ} (hq : 0 ≤ q) (hb : 0 ≤ b) (h : q ^ (5 : ℕ) ≤ b ^ (12 : ℕ)) :
    q ≤ b ^ (2.4 : ℝ) := by
  have h1 : b ^ (2.4 : ℝ) = ((b ^ (12 : ℕ) : ℝ)) ^ ((1 : ℝ) / 5) := by
    rw [← Real.rpow_natCast b 12, ← Real.rpow_mul hb]
    norm_num
  have h2 : q = ((q ^ (5 : ℕ) : ℝ)) ^ ((1 : ℝ) / 5) := by
    rw [← Real.rpow_natCast q 5, ← Real.rpow_mul hq]
    norm_num
  rw [h1, h2]
  exact Real.rpow_le_rpow (pow_nonneg hq 5) h (by norm_num)

theorem rpow_24_inv {b : ℝ} (hb : 0 ≤ b) : (b ^ (2.4 : ℝ)) ^ ((1 : ℝ) / 2.4) = b := by
  rw [← Real.rpow_mul hb]
  norm_num

theorem pow5_sub_le {x y : ℝ} (h0 : 0 ≤ y) (hxy : y ≤ x) :
    x ^ (5 : ℕ) - y ^ (5 : ℕ) ≤ 5 * x ^ (4 : ℕ) * (x - y) := by
  have hx : 0 ≤ x := le_trans h0 hxy
  have t1 : x ^ 3 * y ≤ x ^ 3 * x := mul_le_mul_of_nonneg_left hxy (pow_nonneg hx 3)
  have t2 : x ^ 2 * y ^ 2 ≤ x ^ 2 * x ^ 2 :=
    mul_le_mul_of_nonneg_left (pow_le_pow_left h0 hxy 2) (pow_nonneg hx 2)
  have t3 : x * y ^ 3 ≤ x * x ^ 3 := mul_le_mul_of_nonneg_left (pow_le_pow_left h0 hxy 3) hx
  have t4 : y ^ 4 ≤ x ^ 4 := pow_le_pow_left h0 hxy 4
  have hS : x ^ 4 + x ^ 3 * y + x ^ 2 * y ^ 2 + x * y ^ 3 + y ^ 4 ≤ 5 * x ^ 4 := by nlinarith
  have hfac : x ^ (5 : ℕ) - y ^ (5 : ℕ) =
      (x - y) * (x ^ 4 + x ^ 3 * y + x ^ 2 * y ^ 2 + x * y ^ 3 + y ^ 4) := by ring
  have hd : 0 ≤ x - y := sub_nonneg.2 hxy
  calc x ^ (5 : ℕ) - y ^ (5 : ℕ)
      = (x - y) * (x ^ 4 + x ^ 3 * y + x ^ 2 * y ^ 2 + x * y ^ 3 + y ^ 4) := hfac
    _ ≤ (x - y) * (5 * x ^ 4) := mul_le_mul_of_nonneg_left hS hd
    _ = 5 * x ^ (4 : ℕ) * (x - y) := by ring

theorem pow12_sub_ge {x y : ℝ} (h0 : 0 ≤ y) (hxy : y ≤ x) :
    12 * y ^ (11 : ℕ) * (x - y) ≤ x ^ (12 : ℕ) - y ^ (12 : ℕ) := by
  have hx : 0 ≤ x := le_trans h0 hxy
  have hterm : ∀ i : ℕ, i ≤ 11 → y ^ (11 : ℕ) ≤ x ^ i * y ^ (11 - i) := by
    intro i hi
    have h1 : y ^ i ≤ x ^ i := pow_le_pow_left h0 hxy i
    have h2 : y ^ i * y ^ (11 - i) ≤ x ^ i * y ^ (11 - i) :=
      mul_le_mul_of_nonneg_right h1 (pow_nonneg h0 _)
    calc y ^ (11 : ℕ) = y ^ i * y ^ (11 - i) := by rw [← pow_add]; congr 1; omega
      _ ≤ x ^ i * y ^ (11 - i) := h2
  have t0 := hterm 0 (by omega)
  have t1 := hterm 1 (by omega)
  have t2 := hterm 2 (by omega)
  have t3 := hterm 3 (by omega)
  have t4 := hterm 4 (by omega)
  have t5 := hterm 5 (by omega)
  have t6 := hterm 6 (by omega)
  have t7 := hterm 7 (by omega)
  have t8 := hterm 8 (by omega)
  have t9 := hterm 9 (by omega)
  have t10 := hterm 10 (by omega)
  have t11 := hterm 11 (by omega)
  norm_num at t0 t1 t2 t3 t4 t5 t6 t7 t8 t9 t10 t11
  have hS : 12 * y ^ (11 : ℕ) ≤
      x ^ 11 + x ^ 10 * y + x ^ 9 * y ^ 2 + x ^ 8 * y ^ 3 + x ^ 7 * y ^ 4 + x ^ 6 * y ^ 5 +
      x ^ 5 * y ^ 6 + x ^ 4 * y ^ 7 + x ^ 3 * y ^ 8 + x ^ 2 * y ^ 9 + x * y ^ 10 + y ^ 11 := by
    linarith [t0, t1, t2, t3, t4, t5, t6, t7, t8, t9, t10, t11]
  have hfac : x ^ (12 : ℕ) - y ^ (12 : ℕ) =
      (x - y) * (x ^ 11 + x ^ 10 * y + x ^ 9 * y ^ 2 + x ^ 8 * y ^ 3 + x ^ 7 * y ^ 4 +
        x ^ 6 * y ^ 5 + x ^ 5 * y ^ 6 + x ^ 4 * y ^ 7 + x ^ 3 * y ^ 8 + x ^ 2 * y ^ 9 +
        x * y ^ 10 + y ^ 11) := by ring
  have hd : 0 ≤ x - y := sub_nonneg.2 hxy
  calc 12 * y ^ (11 : ℕ) * (x - y) = (x - y) * (12 * y ^ (11 : ℕ)) := by ring
    _ ≤ (x - y) * (x ^ 11 + x ^ 10 * y + x ^ 9 * y ^ 2 + x ^ 8 * y ^ 3 + x ^ 7 * y ^ 4 +
        x ^ 6 * y ^ 5 + x ^ 5 * y ^ 6 + x ^ 4 * y ^ 7 + x ^ 3 * y ^ 8 + x ^ 2 * y ^ 9 +
        x * y ^ 10 + y ^ 11) := mul_le_mul_of_nonneg_left hS hd
    _ = x ^ (12 : ℕ) - y ^ (12 : ℕ) := hfac.symm

/-- Lipschitz bound for `x ↦ x^(1/2.4)` on `[0.0031307, 1.2]`. -/
theorem rpow512_lipschitz {x y : ℝ} (hy : (0.0031307 : ℝ) ≤ y) (hxy : y ≤ x)
    (hx : x ≤ 1.2) : x ^ ((1 : ℝ) / 2.4) - y ^ ((1 : ℝ) / 2.4) ≤ 90 * (x - y) := by
  have hy0 : (0 : ℝ) ≤ y := by linarith
  have hx0 : (0 : ℝ) ≤ x := le_trans hy0 hxy
  set a := x ^ ((1 : ℝ) / 12) with ha_def
  set c := y ^ ((1 : ℝ) / 12) with hc_def
  have ha0 : 0 ≤ a := Real.rpow_nonneg hx0 _
  have hc0 : 0 ≤ c := Real.rpow_nonneg hy0 _
  have hca : c ≤ a := Real.rpow_le_rpow hy0 hxy (by norm_num)
  have ha12 : a ^ (12 : ℕ) = x := by
    rw [ha_def, ← Real.rpow_natCast (x ^ ((1 : ℝ) / 12)) 12, ← Real.rpow_mul hx0]
    norm_num
  have hc12 : c ^ (12 : ℕ) = y := by
    rw [hc_def, ← Real.rpow_natCast (y ^ ((1 : ℝ) / 12)) 12, ← Real.rpow_mul hy0]
    norm_num
  have ha5 : a ^ (5 : ℕ) = x ^ ((1 : ℝ) / 2.4) := by
    rw [ha_def, ← Real.rpow_natCast (x ^ ((1 : ℝ) / 12)) 5, ← Real.rpow_mul hx0]
    norm_num
  have hc5 : c ^ (5 : ℕ) = y ^ ((1 : ℝ) / 2.4) := by
    rw [hc_def, ← Real.rpow_natCast (y ^ ((1 : ℝ) / 12)) 5, ← Real.rpow_mul hy0]
    norm_num
  have hclb : (0.618 : ℝ) ≤ c := by
    by_contra hcon
    push_neg at hcon
    have hlt : c ^ (12 : ℕ) < (0.618 : ℝ) ^ (12 : ℕ) :=
      pow_lt_pow_left hcon hc0 (by norm_num)
    rw [hc12] at hlt
    have : ((0.618 : ℝ)) ^ (12 : ℕ) ≤ 0.0031307 := by norm_num
    linarith
  have haub : a ≤ (1.016 : ℝ) := by
    by_contra hcon
    push_neg at hcon
    have hlt : (1.016 : ℝ) ^ (12 : ℕ) < a ^ (12 : ℕ) :=
      pow_lt_pow_left hcon (by norm_num) (by norm_num)
    rw [ha12] at hlt
    have : (1.2 : ℝ) ≤ ((1.016 : ℝ)) ^ (12 : ℕ) := by norm_num
    linarith
  have h5 : a ^ (5 : ℕ) - c ^ (5 : ℕ) ≤ 5 * a ^ (4 : ℕ) * (a - c) := pow5_sub_le hc0 hca
  have h12 : 12 * c ^ (11 : ℕ) * (a - c) ≤ a ^ (12 : ℕ) - c ^ (12 : ℕ) := pow12_sub_ge hc0 hca
  have hc11 : ((0.618 : ℝ)) ^ (11 : ℕ) ≤ c ^ (11 : ℕ) := pow_le_pow_left (by norm_num) hclb 11
  have ha4 : a ^ (4 : ℕ) ≤ ((1.016 : ℝ)) ^ (4 : ℕ) := pow_le_pow_left ha0 haub 4
  have hc11pos : (0 : ℝ) < c ^ (11 : ℕ) :=
    lt_of_lt_of_le (by norm_num : (0 : ℝ) < ((0.618 : ℝ)) ^ (11 : ℕ)) hc11
  have hxy12 : a ^ (12 : ℕ) - c ^ (12 : ℕ) = x - y := by rw [ha12, hc12]
  have hstep : a - c ≤ (x - y) / (12 * ((0.618 : ℝ)) ^ (11 : ℕ)) := by
    rw [le_div_iff (by positivity)]
    have h1 : (a - c) * (12 * ((0.618 : ℝ)) ^ (11 : ℕ)) ≤ (a - c) * (12 * c ^ (11 : ℕ)) := by
      apply mul_le_mul_of_nonneg_left _ (sub_nonneg.2 hca)
      nlinarith [hc11]
    calc (a - c) * (12 * ((0.618 : ℝ)) ^ (11 : ℕ)) ≤ (a - c) * (12 * c ^ (11 : ℕ)) := h1
      _ = 12 * c ^ (11 : ℕ) * (a - c) := by ring
      _ ≤ a ^ (12 : ℕ) - c ^ (12 : ℕ) := h12
      _ = x - y := hxy12
  have hd0 : 0 ≤ a - c := sub_nonneg.2 hca
  have hxymd : 0 ≤ x - y := sub_nonneg.2 (le_trans hxy le_rfl)
  have hfinal : 5 * a ^ (4 : ℕ) * (a - c) ≤ 90 * (x - y) := by
    have hb1 : 5 * a ^ (4 : ℕ) * (a - c) ≤ 5 * ((1.016 : ℝ)) ^ (4 : ℕ) * (a - c) := by
      apply mul_le_mul_of_nonneg_right _ hd0
      nlinarith [ha4]
    have hb2 : 5 * ((1.016 : ℝ)) ^ (4 : ℕ) * (a - c) ≤
        5 * ((1.016 : ℝ)) ^ (4 : ℕ) * ((x - y) / (12 * ((0.618 : ℝ)) ^ (11 : ℕ))) := by
      apply mul_le_mul_of_nonneg_left hstep (by positivity)
    have hb3 : 5 * ((1.016 : ℝ)) ^ (4 : ℕ) * ((x - y) / (12 * ((0.618 : ℝ)) ^ (11 : ℕ))) ≤
        90 * (x - y) := by
      rw [mul_div_assoc']
      rw [div_le_iff (by positivity)]
      nlinarith [hxymd]
    linarith
  calc x ^ ((1 : ℝ) / 2.4) - y ^ ((1 : ℝ) / 2.4) = a ^ (5 : ℕ) - c ^ (5 : ℕ) := by
        rw [ha5, hc5]
    _ ≤ 5 * a ^ (4 : ℕ) * (a - c) := h5
    _ ≤ 90 * (x - y) := hfinal

set_option maxHeartbeats 1000000 in
/-- Gamma-encode stage of the round trip: if `u'` is within `6e-6` of the
true linearized value of `v ∈ [0,1]`, then encoding `u'` lands within
`1e-3` of `v`. -/
theorem linearToSrgb_approx {v u' : ℝ} (hv0 : 0 ≤ v) (hv1 : v ≤ 1)
    (hu : |u' - srgbToLinear v| ≤ 0.000006) : |linearToSrgb u' - v| ≤ 0.001 := by
  have huu := abs_le.1 hu
  rcases le_or_lt v 0.04045 with hA | hB
  · have hveq : v = 12.92 * srgbToLinear v := by
      unfold srgbToLinear
      rw [if_pos hA]
      ring
    rcases le_or_lt u' 0.0031308 with hA1 | hA2
    · have hE : linearToSrgb u' = 12.92 * u' := by
        unfold linearToSrgb
        rw [if_pos hA1]
      rw [hE, abs_le]
      constructor <;> linarith [huu.1, huu.2, hveq]
    · have hE : linearToSrgb u' = 1.055 * u' ^ ((1 : ℝ) / 2.4) - 0.055 := by
        unfold linearToSrgb
        rw [if_neg (not_le.2 hA2)]
      have hu'0 : (0 : ℝ) ≤ u' := by linarith
      have huub : srgbToLinear v ≤ 0.0031309 := by linarith [hveq, hA]
      have hu'ub : u' ≤ 0.0031369 := by linarith [huu.2, huub]
      have hq1 : (0.0904 : ℝ) ≤ u' ^ ((1 : ℝ) / 2.4) := by
        apply le_rpow_fr (by norm_num) hu'0
        calc ((0.0904 : ℝ)) ^ (12 : ℕ) ≤ ((0.0031308 : ℝ)) ^ (5 : ℕ) := by norm_num
          _ ≤ u' ^ (5 : ℕ) := pow_le_pow_left (by norm_num) (le_of_lt hA2) 5
      have hq2 : u' ^ ((1 : ℝ) / 2.4) ≤ 0.0906 := by
        apply rpow_fr_le hu'0 (by norm_num)
        calc u' ^ (5 : ℕ) ≤ ((0.0031369 : ℝ)) ^ (5 : ℕ) := pow_le_pow_left hu'0 hu'ub 5
          _ ≤ ((0.0906 : ℝ)) ^ (12 : ℕ) := by norm_num
      have hv_lb : (0.040372 : ℝ) ≤ v := by linarith [huu.1, hveq, hA2]
      rw [hE, abs_le]
      constructor <;> linarith [hq1, hq2, hv_lb, hA]
  · have hb0 : (0 : ℝ) ≤ (v + 0.055) / 1.055 := div_nonneg (by linarith) (by norm_num)
    have hu_eq : srgbToLinear v = ((v + 0.055) / 1.055) ^ (2.4 : ℝ) := by
      unfold srgbToLinear
      rw [if_neg (not_le.2 hB)]
    have hvE : 1.055 * (srgbToLinear v) ^ ((1 : ℝ) / 2.4) - 0.055 = v := by
      rw [hu_eq, rpow_24_inv hb0]
      field_simp
    have hu_lb : (0.0031307 : ℝ) ≤ srgbToLinear v := by
      rw [hu_eq]
      apply le_rpow_24 (by norm_num) hb0
      calc ((0.0031307 : ℝ)) ^ (5 : ℕ) ≤ (((0.04045 : ℝ) + 0.055) / 1.055) ^ (12 : ℕ) := by
            norm_num
        _ ≤ (((v : ℝ) + 0.055) / 1.055) ^ (12 : ℕ) := by
            apply pow_le_pow_left (by norm_num)
            gcongr
    have hu_ub : srgbToLinear v ≤ 1 := by
      rw [hu_eq]
      apply Real.rpow_le_one hb0 _ (by norm_num)
      rw [div_le_one (by norm_num)]
      linarith
    rcases le_or_lt u' 0.0031308 with hB2 | hB1
    · have hE : linearToSrgb u' = 12.92 * u' := by
        unfold linearToSrgb
        rw [if_pos hB2]
      have hu_ub2 : srgbToLinear v ≤ 0.0031368 := by linarith [huu.2]
      have hq1 : (0.0904 : ℝ) ≤ (srgbToLinear v) ^ ((1 : ℝ) / 2.4) := by
        apply le_rpow_fr (by norm_num) (by linarith)
        calc ((0.0904 : ℝ)) ^ (12 : ℕ) ≤ ((0.0031307 : ℝ)) ^ (5 : ℕ) := by norm_num
          _ ≤ (srgbToLinear v) ^ (5 : ℕ) := pow_le_pow_left (by norm_num) hu_lb 5
      have hq2 : (srgbToLinear v) ^ ((1 : ℝ) / 2.4) ≤ 0.0906 := by
        apply rpow_fr_le (by linarith) (by norm_num)
        calc (srgbToLinear v) ^ (5 : ℕ) ≤ ((0.0031368 : ℝ)) ^ (5 : ℕ) :=
              pow_le_pow_left (by linarith) hu_ub2 5
          _ ≤ ((0.0906 : ℝ)) ^ (12 : ℕ) := by norm_num
      have hu'_lb : (0.0031247 : ℝ) ≤ u' := by linarith [huu.1]
      rw [hE, abs_le]
      constructor <;> linarith [hq1, hq2, hvE, hu'_lb, hB2]
    · have hE : linearToSrgb u' = 1.055 * u' ^ ((1 : ℝ) / 2.4) - 0.055 := by
        unfold linearToSrgb
        rw [if_neg (not_le.2 hB1)]
      have hu'ub : u' ≤ 1.2 := by linarith [huu.2, hu_ub]
      rcases le_total (srgbToLinear v) u' with hord | hord
      · have hlip := rpow512_lipschitz hu_lb hord hu'ub
        have hmono : (srgbToLinear v) ^ ((1 : ℝ) / 2.4) ≤ u' ^ ((1 : ℝ) / 2.4) :=
          Real.rpow_le_rpow (by linarith) hord (by norm_num)
        rw [hE, abs_le]
        constructor <;> linarith [hlip, hmono, hvE, huu.1, huu.2]
      · have hlip := rpow512_lipschitz (by linarith : (0.0031307 : ℝ) ≤ u') hord
          (by linarith : srgbToLinear v ≤ 1.2)
        have hmono : u' ^ ((1 : ℝ) / 2.4) ≤ (srgbToLinear v) ^ ((1 : ℝ) / 2.4) :=
          Real.rpow_le_rpow (by linarith) hord (by norm_num)
        rw [hE, abs_le]
        constructor <;> linarith [hlip, hmono, hvE, huu.1, huu.2]

theorem rgbToXyzDet_val : rgbToXyzDet = 12941023081163433 / 62500000000000000 := by
  simp only [rgbToXyzDet, rgbToXyzMat, Matrix.cons_val_zero, Matrix.cons_val_one,
    Matrix.head_cons, Matrix.cons_val_two, Matrix.tail_cons]
  norm_num

theorem rgbToXyzDet_pos : 0 < rgbToXyzDet := by
  rw [rgbToXyzDet_val]
  norm_num

/-- The modelled `xyz_to_rgb` matrix is a two-sided inverse of the
`rgb_to_xyz` matrix on pixel vectors. -/
theorem rgbToXyz_inverse (u : Fin 3 → ℝ) (c : Fin 3) :
    ∑ j : Fin 3, xyzToRgbMat c j * (∑ k : Fin 3, rgbToXyzMat j k * u k) = u c := by
  have hD := rgbToXyzDet_val
  have h0 : ∑ j : Fin 3, xyzToRgbMat 0 j * (∑ k : Fin 3, rgbToXyzMat j k * u k) = u 0 := by
    simp only [Fin.sum_univ_three, xyzToRgbMat, rgbToXyzMat, Matrix.cons_val_zero,
      Matrix.cons_val_one, Matrix.head_cons, Matrix.cons_val_two, Matrix.tail_cons, hD]
    ring
  have h1 : ∑ j : Fin 3, xyzToRgbMat 1 j * (∑ k : Fin 3, rgbToXyzMat j k * u k) = u 1 := by
    simp only [Fin.sum_univ_three, xyzToRgbMat, rgbToXyzMat, Matrix.cons_val_zero,
      Matrix.cons_val_one, Matrix.head_cons, Matrix.cons_val_two, Matrix.tail_cons, hD]
    ring
  have h2 : ∑ j : Fin 3, xyzToRgbMat 2 j * (∑ k : Fin 3, rgbToXyzMat j k * u k) = u 2 := by
    simp only [Fin.sum_univ_three, xyzToRgbMat, rgbToXyzMat, Matrix.cons_val_zero,
      Matrix.cons_val_one, Matrix.head_cons, Matrix.cons_val_two, Matrix.tail_cons, hD]
    ring
  fin_cases c
  · exact h0
  · exact h1
  · exact h2

/-- Absolute row sums of the inverse matrix are below `5.3`. -/
theorem xyzToRgbMat_row_abs (c : Fin 3) :
    |xyzToRgbMat c 0| + |xyzToRgbMat c 1| + |xyzToRgbMat c 2| ≤ 5.3 := by
  have hD := rgbToXyzDet_val
  have hDpos : (0 : ℝ) < rgbToXyzDet := rgbToXyzDet_pos
  have h0 : |xyzToRgbMat 0 0| + |xyzToRgbMat 0 1| + |xyzToRgbMat 0 2| ≤ 5.3 := by
    simp only [xyzToRgbMat, rgbToXyzMat, Matrix.cons_val_zero, Matrix.cons_val_one,
      Matrix.head_cons, Matrix.cons_val_two, Matrix.tail_cons]
    rw [abs_of_pos (div_pos (by norm_num) hDpos),
      abs_of_neg (div_neg_of_neg_of_pos (by norm_num) hDpos),
      abs_of_neg (div_neg_of_neg_of_pos (by norm_num) hDpos), hD]
    norm_num
  have h1 : |xyzToRgbMat 1 0| + |xyzToRgbMat 1 1| + |xyzToRgbMat 1 2| ≤ 5.3 := by
    simp only [xyzToRgbMat, rgbToXyzMat, Matrix.cons_val_zero, Matrix.cons_val_one,
      Matrix.head_cons, Matrix.cons_val_two, Matrix.tail_cons]
    rw [abs_of_neg (div_neg_of_neg_of_pos (by norm_num) hDpos),
      abs_of_pos (div_pos (by norm_num) hDpos),
      abs_of_pos (div_pos (by norm_num) hDpos), hD]
    norm_num
  have h2 : |xyzToRgbMat 2 0| + |xyzToRgbMat 2 1| + |xyzToRgbMat 2 2| ≤ 5.3 := by
    simp only [xyzToRgbMat, rgbToXyzMat, Matrix.cons_val_zero, Matrix.cons_val_one,
      Matrix.head_cons, Matrix.cons_val_two, Matrix.tail_cons]
    rw [abs_of_pos (div_pos (by norm_num) hDpos),
      abs_of_neg (div_neg_of_neg_of_pos (by norm_num) hDpos),
      abs_of_pos (div_pos (by norm_num) hDpos), hD]
    norm_num
  fin_cases c
  · exact h0
  · exact h1
  · exact h2

/-- Linearized pixel of the forward pipeline. -/
noncomputable def linPix (p : Fin 3 → ℝ) : Fin 3 → ℝ := fun c => srgbToLinear (p c)

/-- XYZ pixel of the forward pipeline. -/
noncomputable def xyzPix (p : Fin 3 → ℝ) : Fin 3 → ℝ :=
  fun c => ∑ j : Fin 3, rgbToXyzMat c j * linPix p j

/-- White-point-normalized XYZ pixel of the forward pipeline. -/
noncomputable def tPix (p : Fin 3 → ℝ) : Fin 3 → ℝ :=
  fun c => xyzPix p c / xyzRefWhite c

theorem srgbToLinear_mem {v : ℝ} (h0 : 0 ≤ v) (h1 : v ≤ 1) :
    0 ≤ srgbToLinear v ∧ srgbToLinear v ≤ 1 := by
  unfold srgbToLinear
  split
  · refine ⟨div_nonneg h0 (by norm_num), ?_⟩
    rw [div_le_one (by norm_num)]
    linarith
  · have hb0 : (0 : ℝ) ≤ (v + 0.055) / 1.055 := div_nonneg (by linarith) (by norm_num)
    refine ⟨Real.rpow_nonneg hb0 _, Real.rpow_le_one hb0 ?_ (by norm_num)⟩
    rw [div_le_one (by norm_num)]
    linarith

theorem xyzRefWhite_bounds (j : Fin 3) : 0 < xyzRefWhite j ∧ xyzRefWhite j ≤ 1.08883 := by
  fin_cases j <;> constructor <;>
    norm_num [xyzRefWhite, Matrix.cons_val_zero, Matrix.cons_val_one, Matrix.head_cons,
      Matrix.cons_val_two, Matrix.tail_cons]

theorem tPix_mem (p : Fin 3 → ℝ) (hp : ∀ c : Fin 3, 0 ≤ p c ∧ p c ≤ 1) (c : Fin 3) :
    0 ≤ tPix p c ∧ tPix p c ≤ 1 := by
  have h0 := srgbToLinear_mem (hp 0).1 (hp 0).2
  have h1 := srgbToLinear_mem (hp 1).1 (hp 1).2
  have h2 := srgbToLinear_mem (hp 2).1 (hp 2).2
  have hb0 : 0 ≤ tPix p 0 ∧ tPix p 0 ≤ 1 := by
    simp only [tPix, xyzPix, linPix, xyzRefWhite, Fin.sum_univ_three, rgbToXyzMat,
      Matrix.cons_val_zero, Matrix.cons_val_one, Matrix.head_cons,
      Matrix.cons_val_two, Matrix.tail_cons]
    constructor
    · apply div_nonneg _ (by norm_num)
      linarith [h0.1, h1.1, h2.1]
    · rw [div_le_one (by norm_num)]
      linarith [h0.2, h1.2, h2.2]
  have hb1 : 0 ≤ tPix p 1 ∧ tPix p 1 ≤ 1 := by
    simp only [tPix, xyzPix, linPix, xyzRefWhite, Fin.sum_univ_three, rgbToXyzMat,
      Matrix.cons_val_zero, Matrix.cons_val_one, Matrix.head_cons,
      Matrix.cons_val_two, Matrix.tail_cons]
    constructor
    · apply div_nonneg _ (by norm_num)
      linarith [h0.1, h1.1, h2.1]
    · rw [div_le_one (by norm_num)]
      linarith [h0.2, h1.2, h2.2]
  have hb2 : 0 ≤ tPix p 2 ∧ tPix p 2 ≤ 1 := by
    simp only [tPix, xyzPix, linPix, xyzRefWhite, Fin.sum_univ_three, rgbToXyzMat,
      Matrix.cons_val_zero, Matrix.cons_val_one, Matrix.head_cons,
      Matrix.cons_val_two, Matrix.tail_cons]
    constructor
    · apply div_nonneg _ (by norm_num)
      linarith [h0.1, h1.1, h2.1]
    · rw [div_le_one (by norm_num)]
      linarith [h0.2, h1.2, h2.2]
  fin_cases c
  · exact hb0
  · exact hb1
  · exact hb2

theorem rgbToLabPix_eq (p : Fin 3 → ℝ) :
    rgbToLabPix p = ![116.0 * labFwdF (tPix p 1) - 16.0,
      500.0 * (labFwdF (tPix p 0) - labFwdF (tPix p 1)),
      200.0 * (labFwdF (tPix p 1) - labFwdF (tPix p 2))] := rfl

theorem labFPix_of_rgbToLabPix (p : Fin 3 → ℝ) (ht : ∀ c : Fin 3, 0 ≤ tPix p c) :
    labFPix (rgbToLabPix p) = fun j : Fin 3 => labFwdF (tPix p j) := by
  have h2 := labFwdF_nonneg (ht 2)
  have e0 : labFPix (rgbToLabPix p) 0 = labFwdF (tPix p 0) := by
    simp only [labFPix, rgbToLabPix_eq, Matrix.cons_val_zero, Matrix.cons_val_one,
      Matrix.head_cons, Matrix.cons_val_two, Matrix.tail_cons]
    ring
  have e1 : labFPix (rgbToLabPix p) 1 = labFwdF (tPix p 1) := by
    simp only [labFPix, rgbToLabPix_eq, Matrix.cons_val_zero, Matrix.cons_val_one,
      Matrix.head_cons, Matrix.cons_val_two, Matrix.tail_cons]
    ring
  have e2 : labFPix (rgbToLabPix p) 2 = labFwdF (tPix p 2) := by
    simp only [labFPix, rgbToLabPix_eq, Matrix.cons_val_zero, Matrix.cons_val_one,
      Matrix.head_cons, Matrix.cons_val_two, Matrix.tail_cons]
    rw [show (116.0 * labFwdF (tPix p 1) - 16.0 + 16.0) / 116.0 -
        200.0 * (labFwdF (tPix p 1) - labFwdF (tPix p 2)) / 200.0 =
        labFwdF (tPix p 2) from by ring]
    exact max_eq_right h2
  funext j
  fin_cases j
  · exact e0
  · exact e1
  · exact e2

/-- Per-pixel round trip of the full Lab pipeline: within `1e-3` for inputs
in `[0,1]`. -/
theorem roundtrip_pix (p : Fin 3 → ℝ) (hp : ∀ c : Fin 3, 0 ≤ p c ∧ p c ≤ 1) (c : Fin 3) :
    |labToRgbPix true (rgbToLabPix p) c - p c| ≤ 0.001 := by
  have ht : ∀ j : Fin 3, 0 ≤ tPix p j ∧ tPix p j ≤ 1 := tPix_mem p hp
  have hinv : ∀ j : Fin 3, |labInvF (labFwdF (tPix p j)) - tPix p j| ≤ 0.000001 :=
    fun j => labInvF_labFwdF (ht j).1
  have hxyzW : ∀ j : Fin 3, tPix p j * xyzRefWhite j = xyzPix p j := by
    intro j
    unfold tPix
    exact div_mul_cancel₀ _ (ne_of_gt (xyzRefWhite_bounds j).1)
  have hδ : ∀ j : Fin 3,
      |labInvF (labFwdF (tPix p j)) * xyzRefWhite j - xyzPix p j| ≤ 0.0000011 := by
    intro j
    rw [← hxyzW j, ← sub_mul, abs_mul, abs_of_pos (xyzRefWhite_bounds j).1]
    calc |labInvF (labFwdF (tPix p j)) - tPix p j| * xyzRefWhite j
        ≤ 0.000001 * 1.08883 :=
          mul_le_mul (hinv j) (xyzRefWhite_bounds j).2
            (le_of_lt (xyzRefWhite_bounds j).1) (by norm_num)
      _ ≤ 0.0000011 := by norm_num
  have hexact : ∑ j : Fin 3, xyzToRgbMat c j * xyzPix p j = linPix p c :=
    rgbToXyz_inverse (linPix p) c
  have hlin : |(∑ j : Fin 3, xyzToRgbMat c j *
      (labInvF (labFwdF (tPix p j)) * xyzRefWhite j)) - linPix p c| ≤ 0.000006 := by
    rw [← hexact, ← Finset.sum_sub_distrib]
    simp only [← mul_sub]
    rw [Fin.sum_univ_three]
    have habs3 : ∀ x y z : ℝ, |x + y + z| ≤ |x| + |y| + |z| := fun x y z =>
      le_trans (abs_add _ _) (add_le_add_right (abs_add _ _) _)
    have hterm : ∀ j : Fin 3, |xyzToRgbMat c j *
        (labInvF (labFwdF (tPix p j)) * xyzRefWhite j - xyzPix p j)| ≤
        |xyzToRgbMat c j| * 0.0000011 := by
      intro j
      rw [abs_mul]
      exact mul_le_mul_of_nonneg_left (hδ j) (abs_nonneg _)
    calc |xyzToRgbMat c 0 * (labInvF (labFwdF (tPix p 0)) * xyzRefWhite 0 - xyzPix p 0) +
          xyzToRgbMat c 1 * (labInvF (labFwdF (tPix p 1)) * xyzRefWhite 1 - xyzPix p 1) +
          xyzToRgbMat c 2 * (labInvF (labFwdF (tPix p 2)) * xyzRefWhite 2 - xyzPix p 2)|
        ≤ |xyzToRgbMat c 0 * (labInvF (labFwdF (tPix p 0)) * xyzRefWhite 0 - xyzPix p 0)| +
          |xyzToRgbMat c 1 * (labInvF (labFwdF (tPix p 1)) * xyzRefWhite 1 - xyzPix p 1)| +
          |xyzToRgbMat c 2 * (labInvF (labFwdF (tPix p 2)) * xyzRefWhite 2 - xyzPix p 2)| :=
          habs3 _ _ _
      _ ≤ |xyzToRgbMat c 0| * 0.0000011 + |xyzToRgbMat c 1| * 0.0000011 +
          |xyzToRgbMat c 2| * 0.0000011 :=
          add_le_add (add_le_add (hterm 0) (hterm 1)) (hterm 2)
      _ ≤ 0.000006 := by linarith [xyzToRgbMat_row_abs c]
  have happrox : |linearToSrgb (∑ j : Fin 3, xyzToRgbMat c j *
      (labInvF (labFwdF (tPix p j)) * xyzRefWhite j)) - p c| ≤ 0.001 :=
    linearToSrgb_approx (hp c).1 (hp c).2 hlin
  have hfp := labFPix_of_rgbToLabPix p (fun j => (ht j).1)
  have hform : labToRgbPix true (rgbToLabPix p) c =
      min 1 (max 0 (linearToSrgb (∑ j : Fin 3, xyzToRgbMat c j *
        (labInvF (labFwdF (tPix p j)) * xyzRefWhite j)))) := by
    simp only [labToRgbPix, hfp, if_true]
  rw [hform]
  exact le_trans (clamp01_contract (hp c).1 (hp c).2) happrox

end RoundTripNumerics

section Claims

/-- C10: every converter (grayscale_to_rgb, rgb_to_grayscale,
bgr_to_grayscale, rgb_to_lab, lab_to_rgb) raises a shape error for any
input tensor with fewer than 3 dimensions, before any computation. -/
theorem C10_low_rank_rejected :
    (∀ (α : Type) (image : Tensor α), image.shape.length < 3 →
      grayscale_to_rgb image = .error .shapeError) ∧
    (∀ (dt : DType) (image : Tensor (ScalarOf dt)) (w : Option (Fin 3 → ScalarOf dt)),
      image.shape.length < 3 → rgb_to_grayscale dt image w = .error .shapeError) ∧
    (∀ (dt : DType) (image : Tensor (ScalarOf dt)), image.shape.length < 3 →
      bgr_to_grayscale dt image = .error .shapeError) ∧
    (∀ image : Tensor ℝ, image.shape.length < 3 →
      rgb_to_lab image = .error .shapeError) ∧
    (∀ (image : Tensor ℝ) (clip : Bool), image.shape.length < 3 →
      lab_to_rgb image clip = .error .shapeError) := by
  refine ⟨?_, ?_, ?_, ?_, ?_⟩
  · intro α image h
    rw [grayscale_to_rgb, if_pos (Or.inl h)]
  · intro dt image w h
    rw [rgb_to_grayscale.eq_def, if_pos (Or.inl h)]
  · intro dt image h
    rw [bgr_to_grayscale, if_pos (Or.inl h)]
  · intro image h
    rw [rgb_to_lab, if_pos (Or.inl h)]
  · intro image clip h
    rw [lab_to_rgb, if_pos (Or.inl h)]

theorem C10_low_rank_rejected_witness :
    grayscale_to_rgb (⟨[3, 4], fun _ => (0 : ℚ)⟩ : Tensor ℚ) = .error .shapeError ∧
    rgb_to_grayscale .uint8 (⟨[3, 4], fun _ => (0 : ZMod 256)⟩ : Tensor (ZMod 256)) none =
      .error .shapeError ∧
    rgb_to_lab (⟨[3, 4], fun _ => (0 : ℝ)⟩ : Tensor ℝ) = .error .shapeError :=
  ⟨C10_low_rank_rejected.1 ℚ _ (by norm_num),
   C10_low_rank_rejected.2.1 .uint8 _ none (by norm_num),
   C10_low_rank_rejected.2.2.2.1 _ (by norm_num)⟩

/-- C8: every converter raises its error before any numeric work (the
result is an error value, not a tensor): a channel-axis mismatch raises a
shape error — in particular channel size 2 into `rgb_to_grayscale` and
channel size 3 into `grayscale_to_rgb` — and an unsupported dtype in the
default-weight lookup raises a type error; the functions are deterministic,
so the same invalid input always produces the same error kind. -/
theorem C8_error_taxonomy :
    (∀ (α : Type) (image : Tensor α),
      image.shape.length < 3 ∨ image.channelSize ≠ 1 →
      grayscale_to_rgb image = .error .shapeError) ∧
    (∀ (dt : DType) (image : Tensor (ScalarOf dt)) (w : Option (Fin 3 → ScalarOf dt)),
      image.shape.length < 3 ∨ image.channelSize ≠ 3 →
      rgb_to_grayscale dt image w = .error .shapeError) ∧
    (∀ (dt : DType) (image : Tensor (ScalarOf dt)),
      image.shape.length < 3 ∨ image.channelSize ≠ 3 →
      bgr_to_grayscale dt image = .error .shapeError) ∧
    (∀ image : Tensor ℝ, image.shape.length < 3 ∨ image.channelSize ≠ 3 →
      rgb_to_lab image = .error .shapeError) ∧
    (∀ (image : Tensor ℝ) (clip : Bool),
      image.shape.length < 3 ∨ image.channelSize ≠ 3 →
      lab_to_rgb image clip = .error .shapeError) ∧
    (∀ image : Tensor (ScalarOf .int32), 3 ≤ image.shape.length → image.channelSize = 3 →
      rgb_to_grayscale .int32 image none = .error .typeError) ∧
    (∀ image : Tensor (ScalarOf .int64), 3 ≤ image.shape.length → image.channelSize = 3 →
      rgb_to_grayscale .int64 image none = .error .typeError) ∧
    (∀ (dt : DType) (image : Tensor (ScalarOf dt)) (w : Option (Fin 3 → ScalarOf dt)),
      image.channelSize = 2 → rgb_to_grayscale dt image w = .error .shapeError) ∧
    (∀ (α : Type) (image : Tensor α), image.channelSize = 3 →
      grayscale_to_rgb image = .error .shapeError) := by
  refine ⟨?_, ?_, ?_, ?_, ?_, ?_, ?_, ?_, ?_⟩
  · intro α image h
    rw [grayscale_to_rgb, if_pos h]
  · intro dt image w h
    rw [rgb_to_grayscale.eq_def, if_pos h]
  · intro dt image h
    rw [bgr_to_grayscale, if_pos h]
  · intro image h
    rw [rgb_to_lab, if_pos h]
  · intro image clip h
    rw [lab_to_rgb, if_pos h]
  · intro image h3 hc
    have hcond : ¬(image.shape.length < 3 ∨ image.channelSize ≠ 3) := by
      push_neg
      exact ⟨by omega, hc⟩
    rw [rgb_to_grayscale.eq_def, if_neg hcond]
    rfl
  · intro image h3 hc
    have hcond : ¬(image.shape.length < 3 ∨ image.channelSize ≠ 3) := by
      push_neg
      exact ⟨by omega, hc⟩
    rw [rgb_to_grayscale.eq_def, if_neg hcond]
    rfl
  · intro dt image w h
    rw [rgb_to_grayscale.eq_def, if_pos (Or.inr (by omega))]
  · intro α image h
    rw [grayscale_to_rgb, if_pos (Or.inr (by omega))]

theorem C8_error_taxonomy_witness :
    rgb_to_grayscale .uint8 (⟨[2, 1, 1], fun _ => (0 : ZMod 256)⟩ : Tensor (ZMod 256)) none =
      .error .shapeError ∧
    grayscale_to_rgb (⟨[3, 1, 1], fun _ => (0 : ℚ)⟩ : Tensor ℚ) = .error .shapeError ∧
    rgb_to_grayscale .int32 (⟨[3, 1, 1], fun _ => (0 : ℤ)⟩ : Tensor ℤ) none =
      .error .typeError :=
  ⟨C8_error_taxonomy.2.2.2.2.2.2.2.1 .uint8 _ none (by decide),
   C8_error_taxonomy.2.2.2.2.2.2.2.2 ℚ _ (by decide),
   C8_error_taxonomy.2.2.2.2.2.1 _ (by norm_num) (by decide)⟩

/-- C9: every conversion operation preserves the leading batch dimensions
and spatial dimensions, altering only the channel-axis size to the target
count (3 for grayscale_to_rgb, 1 for rgb_to_grayscale and bgr_to_grayscale,
3 for rgb_to_lab and lab_to_rgb): the output shape is the input shape with
the third-from-last entry replaced. -/
theorem C9_shape_preservation :
    (∀ (α : Type) (image : Tensor α), 3 ≤ image.shape.length → image.channelSize = 1 →
      okShape (grayscale_to_rgb image) =
        .ok (image.shape.set (image.shape.length - 3) 3)) ∧
    (∀ (dt : DType) (image : Tensor (ScalarOf dt)) (w : Fin 3 → ScalarOf dt),
      3 ≤ image.shape.length → image.channelSize = 3 →
      okShape (rgb_to_grayscale dt image (some w)) =
        .ok (image.shape.set (image.shape.length - 3) 1)) ∧
    (∀ (dt : DType) (image : Tensor (ScalarOf dt)) (w : Fin 3 → ScalarOf dt),
      3 ≤ image.shape.length → image.channelSize = 3 → defaultWeights dt = .ok w →
      okShape (rgb_to_grayscale dt image none) =
        .ok (image.shape.set (image.shape.length - 3) 1)) ∧
    (∀ (dt : DType) (image : Tensor (ScalarOf dt)) (w : Fin 3 → ScalarOf dt),
      3 ≤ image.shape.length → image.channelSize = 3 → defaultWeights dt = .ok w →
      okShape (bgr_to_grayscale dt image) =
        .ok (image.shape.set (image.shape.length - 3) 1)) ∧
    (∀ image : Tensor ℝ, 3 ≤ image.shape.length → image.channelSize = 3 →
      okShape (rgb_to_lab image) =
        .ok (image.shape.set (image.shape.length - 3) 3)) ∧
    (∀ (image : Tensor ℝ) (clip : Bool), 3 ≤ image.shape.length → image.channelSize = 3 →
      okShape (lab_to_rgb image clip) =
        .ok (image.shape.set (image.shape.length - 3) 3)) := by
  refine ⟨?_, ?_, ?_, ?_, ?_, ?_⟩
  · intro α image h3 hc
    rw [grayscale_to_rgb_eq image h3 hc]
    simp only [okShape, Except.map, concat3_self_shape image hc]
  · intro dt image w h3 hc
    exact rgb_to_grayscale_shape dt image (some w) w h3 hc rfl
  · intro dt image w h3 hc hw
    exact rgb_to_grayscale_shape dt image none w h3 hc hw
  · intro dt image w h3 hc hw
    have hcond : ¬(image.shape.length < 3 ∨ image.channelSize ≠ 3) := by
      push_neg
      exact ⟨by omega, hc⟩
    rw [bgr_to_grayscale, if_neg hcond]
    exact rgb_to_grayscale_shape dt (bgr_to_rgb image) none w h3 hc hw
  · intro image h3 hc
    have hc' : image.shape.getD (image.shape.length - 3) 0 = 3 := hc
    rw [rgb_to_lab_shape image h3 hc, set_channel3_cancel image.shape 3 hc' (by omega)]
  · intro image clip h3 hc
    have hc' : image.shape.getD (image.shape.length - 3) 0 = 3 := hc
    rw [lab_to_rgb_shape image clip h3 hc, set_channel3_cancel image.shape 3 hc' (by omega)]

theorem C9_shape_preservation_witness :
    okShape (grayscale_to_rgb (⟨[2, 1, 4, 5], fun _ => (0 : ℚ)⟩ : Tensor ℚ)) =
      .ok [2, 3, 4, 5] ∧
    okShape (rgb_to_grayscale .uint8 (⟨[2, 3, 4, 5], fun _ => (0 : ZMod 256)⟩ :
      Tensor (ZMod 256)) none) = .ok [2, 1, 4, 5] ∧
    okShape (rgb_to_lab (⟨[2, 3, 4, 5], fun _ => (0 : ℝ)⟩ : Tensor ℝ)) =
      .ok [2, 3, 4, 5] := by
  refine ⟨?_, ?_, ?_⟩
  · have h := C9_shape_preservation.1 ℚ ⟨[2, 1, 4, 5], fun _ => (0 : ℚ)⟩
      (by norm_num) (by decide)
    simpa using h
  · have h := C9_shape_preservation.2.2.1 .uint8 ⟨[2, 3, 4, 5], fun _ => (0 : ZMod 256)⟩
      ![76, 150, 29] (by norm_num) (by decide) rfl
    simpa using h
  · have h := C9_shape_preservation.2.2.2.2.1 ⟨[2, 3, 4, 5], fun _ => (0 : ℝ)⟩
      (by norm_num) (by decide)
    simpa using h

/-- C6: `bgr_to_grayscale` on a 3-channel image equals `rgb_to_grayscale`
with default weights applied to the channel-axis reversal of the image
(B,G,R reordered to R,G,B), exactly; the reversal maps channel `c` of the
output to channel `2 − c` of the input. -/
theorem C6_bgr_is_reversed_rgb (dt : DType) (image : Tensor (ScalarOf dt))
    (h3 : 3 ≤ image.shape.length) (hc : image.channelSize = 3) :
    bgr_to_grayscale dt image = rgb_to_grayscale dt (Tensor.flipChannel image) none ∧
    ∀ idx, validIdx image.shape idx = true →
      (Tensor.flipChannel image).data idx =
        image.data (idx.set (image.shape.length - 3)
          (2 - idx.getD (image.shape.length - 3) 0)) := by
  have hcond : ¬(image.shape.length < 3 ∨ image.channelSize ≠ 3) := by
    push_neg
    exact ⟨by omega, hc⟩
  constructor
  · rw [bgr_to_grayscale, if_neg hcond]
    rfl
  · intro idx hv
    simp only [Tensor.flipChannel, hc]

theorem C6_bgr_is_reversed_rgb_witness :
    bgr_to_grayscale .uint8 (⟨[3, 1, 1], fun _ => (0 : ZMod 256)⟩ : Tensor (ZMod 256)) =
      rgb_to_grayscale .uint8
        (Tensor.flipChannel (⟨[3, 1, 1], fun _ => (0 : ZMod 256)⟩ : Tensor (ZMod 256))) none :=
  (C6_bgr_is_reversed_rgb .uint8 _ (by norm_num) (by decide)).1

/-- C7: `grayscale_to_rgb` on a valid 1-channel image replicates the single
channel 3 times along the channel axis with no numeric transform, so
slicing any one of the three output channels returns the original input
exactly (same shape, same data at every valid index). -/
theorem C7_grayscale_replicates (α : Type) (image : Tensor α)
    (h3 : 3 ≤ image.shape.length) (hc : image.channelSize = 1) :
    okShape (grayscale_to_rgb image) =
      .ok (image.shape.set (image.shape.length - 3) 3) ∧
    ∀ c, c < 3 →
      (grayscale_to_rgb image).map (fun t => (t.sliceChannel c).shape) =
        .ok image.shape ∧
      ∀ idx d, validIdx image.shape idx = true →
        okData ((grayscale_to_rgb image).map (fun t => t.sliceChannel c)) idx d =
          image.data idx := by
  have hp : image.shape.length - 3 < image.shape.length := by omega
  have hc' : image.shape.getD (image.shape.length - 3) 0 = 1 := hc
  have hshape1 : image.shape.set (image.shape.length - 3) 1 = image.shape := by
    rw [← hc']
    exact set_getD_cancel image.shape _ hp
  rw [grayscale_to_rgb_eq image h3 hc]
  constructor
  · simp only [okShape, Except.map, concat3_self_shape image hc]
  · intro c hcc
    constructor
    · simp only [Except.map, Except.ok.injEq]
      rw [Tensor.sliceChannel]
      rw [concat3_self_shape image hc]
      simp only [length_set_eq]
      rw [set_set_self, hshape1]
    · intro idx d hv
      have hplt : image.shape.length - 3 < idx.length := by
        rw [validIdx_length hv]
        omega
      have hchan0 : idx.getD (image.shape.length - 3) 0 = 0 := by
        have hlt := validIdx_getD _ idx (image.shape.length - 3) hv hp
        rw [hc'] at hlt
        omega
      have hvset : validIdx (image.shape.set (image.shape.length - 3) 3)
          (idx.set (image.shape.length - 3) c) = true := by
        apply validIdx_set
        · exact validIdx_set_shape _ _ _ _ hv (by omega)
        · rw [set_getD_self image.shape _ 3 hp]
          omega
      simp only [okData, Except.map, Tensor.sliceChannel]
      rw [concat3_self_shape image hc]
      simp only [length_set_eq]
      have hgd : (idx.getD (image.shape.length - 3) 0) + c = c := by omega
      rw [hgd]
      rw [concat3_self_data image h3 hc _ hvset]
      rw [set_set_self]
      have : idx.set (image.shape.length - 3) 0 = idx := by
        rw [← hchan0]
        exact set_getD_cancel idx _ hplt
      rw [this]

theorem C7_grayscale_replicates_witness :
    okShape (grayscale_to_rgb (⟨[1, 1, 2], fun _ => (7 : ℚ)⟩ : Tensor ℚ)) =
      .ok [3, 1, 2] ∧
    okData ((grayscale_to_rgb (⟨[1, 1, 2], fun _ => (7 : ℚ)⟩ : Tensor ℚ)).map
      (fun t => t.sliceChannel 2)) [0, 0, 1] 0 = 7 := by
  constructor
  · have h := (C7_grayscale_replicates ℚ ⟨[1, 1, 2], fun _ => (7 : ℚ)⟩
      (by norm_num) (by decide)).1
    simpa using h
  · have h := ((C7_grayscale_replicates ℚ ⟨[1, 1, 2], fun _ => (7 : ℚ)⟩
      (by norm_num) (by decide)).2 2 (by norm_num)).2 [0, 0, 1] 0 (by decide)
    rw [h]

/-- C4: with no weights supplied, `rgb_to_grayscale` selects defaults by
the dtype — `[76, 150, 29]` (uint8) for 8-bit integer tensors,
`[0.299, 0.587, 0.114]` for the floating dtypes, a type error otherwise —
and for floating-point inputs the output is exactly
`0.299·R + 0.587·G + 0.114·B` elementwise. -/
theorem C4_default_weights :
    defaultWeights .uint8 = .ok ![(76 : ZMod 256), 150, 29] ∧
    defaultWeights .float16 = .ok ![(0.299 : ℝ), 0.587, 0.114] ∧
    defaultWeights .float32 = .ok ![(0.299 : ℝ), 0.587, 0.114] ∧
    defaultWeights .float64 = .ok ![(0.299 : ℝ), 0.587, 0.114] ∧
    defaultWeights .int32 = .error .typeError ∧
    defaultWeights .int64 = .error .typeError ∧
    (∀ image : Tensor ℝ, 3 ≤ image.shape.length → image.channelSize = 3 →
      ∀ idx d, validIdx (image.shape.set (image.shape.length - 3) 1) idx = true →
        okData (rgb_to_grayscale .float16 image none) idx d =
          0.299 * image.data (idx.set (image.shape.length - 3) 0) +
          0.587 * image.data (idx.set (image.shape.length - 3) 1) +
          0.114 * image.data (idx.set (image.shape.length - 3) 2)) ∧
    (∀ image : Tensor ℝ, 3 ≤ image.shape.length → image.channelSize = 3 →
      ∀ idx d, validIdx (image.shape.set (image.shape.length - 3) 1) idx = true →
        okData (rgb_to_grayscale .float64 image none) idx d =
          0.299 * image.data (idx.set (image.shape.length - 3) 0) +
          0.587 * image.data (idx.set (image.shape.length - 3) 1) +
          0.114 * image.data (idx.set (image.shape.length - 3) 2)) ∧
    ∀ image : Tensor ℝ, 3 ≤ image.shape.length → image.channelSize = 3 →
      ∀ idx d, validIdx (image.shape.set (image.shape.length - 3) 1) idx = true →
        okData (rgb_to_grayscale .float32 image none) idx d =
          0.299 * image.data (idx.set (image.shape.length - 3) 0) +
          0.587 * image.data (idx.set (image.shape.length - 3) 1) +
          0.114 * image.data (idx.set (image.shape.length - 3) 2) := by
  refine ⟨rfl, rfl, rfl, rfl, rfl, rfl, ?_, ?_, ?_⟩
  · intro image h3 hc idx d hv
    rw [rgb_to_grayscale_data .float16 image none ![(0.299 : ℝ), 0.587, 0.114]
      h3 hc rfl idx d hv]
    simp only [sAdd, sMul, Matrix.cons_val_zero, Matrix.cons_val_one, Matrix.head_cons,
      Matrix.cons_val_two, Matrix.tail_cons]
  · intro image h3 hc idx d hv
    rw [rgb_to_grayscale_data .float64 image none ![(0.299 : ℝ), 0.587, 0.114]
      h3 hc rfl idx d hv]
    simp only [sAdd, sMul, Matrix.cons_val_zero, Matrix.cons_val_one, Matrix.head_cons,
      Matrix.cons_val_two, Matrix.tail_cons]
  · intro image h3 hc idx d hv
    rw [rgb_to_grayscale_data .float32 image none ![(0.299 : ℝ), 0.587, 0.114]
      h3 hc rfl idx d hv]
    simp only [sAdd, sMul, Matrix.cons_val_zero, Matrix.cons_val_one, Matrix.head_cons,
      Matrix.cons_val_two, Matrix.tail_cons]

theorem C4_default_weights_witness :
    okData (rgb_to_grayscale .float32
      (⟨[3, 1, 1], fun _ => (1 / 2 : ℝ)⟩ : Tensor ℝ) none) [0, 0, 0] 0 =
      0.299 * (1 / 2 : ℝ) + 0.587 * (1 / 2) + 0.114 * (1 / 2) := by
  have h := C4_default_weights.2.2.2.2.2.2.2.2 ⟨[3, 1, 1], fun _ => (1 / 2 : ℝ)⟩
    (by norm_num) (by decide) [0, 0, 0] 0 (by decide)
  simpa using h

/-- C5: on uint8 input with default weights, `rgb_to_grayscale` computes
`76·R + 150·G + 29·B` entirely in 8-bit wrap-around arithmetic, so the
output value is the true weighted sum reduced modulo 256, and whenever the
true weighted sum exceeds 255 the stored value differs from it (wraps). -/
theorem C5_uint8_wraparound (image : Tensor (ScalarOf .uint8))
    (h3 : 3 ≤ image.shape.length) (hc : image.channelSize = 3)
    (idx : List ℕ) (d : ScalarOf .uint8)
    (hv : validIdx (image.shape.set (image.shape.length - 3) 1) idx = true) :
    (okData (rgb_to_grayscale .uint8 image none) idx d).val =
      (76 * (image.data (idx.set (image.shape.length - 3) 0)).val +
       150 * (image.data (idx.set (image.shape.length - 3) 1)).val +
       29 * (image.data (idx.set (image.shape.length - 3) 2)).val) % 256 ∧
    (76 * (image.data (idx.set (image.shape.length - 3) 0)).val +
       150 * (image.data (idx.set (image.shape.length - 3) 1)).val +
       29 * (image.data (idx.set (image.shape.length - 3) 2)).val > 255 →
      (okData (rgb_to_grayscale .uint8 image none) idx d).val ≠
        76 * (image.data (idx.set (image.shape.length - 3) 0)).val +
        150 * (image.data (idx.set (image.shape.length - 3) 1)).val +
        29 * (image.data (idx.set (image.shape.length - 3) 2)).val) := by
  have hkey : ∀ x y z : ZMod 256, (76 * x + 150 * y + 29 * z).val =
      (76 * x.val + 150 * y.val + 29 * z.val) % 256 := by
    intro x y z
    have hcast : ((76 * x.val + 150 * y.val + 29 * z.val : ℕ) : ZMod 256) =
        76 * x + 150 * y + 29 * z := by
      push_cast
      rw [ZMod.natCast_val, ZMod.natCast_val, ZMod.natCast_val]
      simp [ZMod.cast_id]
    rw [← hcast, ZMod.val_natCast]
  have hdata := rgb_to_grayscale_data .uint8 image none ![(76 : ZMod 256), 150, 29]
    h3 hc rfl idx d hv
  have hdata' : okData (rgb_to_grayscale .uint8 image none) idx d =
      76 * image.data (idx.set (image.shape.length - 3) 0) +
      150 * image.data (idx.set (image.shape.length - 3) 1) +
      29 * image.data (idx.set (image.shape.length - 3) 2) := by
    rw [hdata]
    simp only [sAdd, sMul, Matrix.cons_val_zero, Matrix.cons_val_one, Matrix.head_cons,
      Matrix.cons_val_two, Matrix.tail_cons]
  constructor
  · rw [hdata']
    exact hkey _ _ _
  · intro hgt
    rw [hdata', hkey]
    have hmod : (76 * (image.data (idx.set (image.shape.length - 3) 0)).val +
        150 * (image.data (idx.set (image.shape.length - 3) 1)).val +
        29 * (image.data (idx.set (image.shape.length - 3) 2)).val) % 256 < 256 :=
      Nat.mod_lt _ (by norm_num)
    omega

theorem C5_uint8_wraparound_witness :
    (okData (rgb_to_grayscale .uint8
      (⟨[3, 1, 1], fun _ => (255 : ZMod 256)⟩ : Tensor (ZMod 256)) none) [0, 0, 0] 0).val =
      (76 * 255 + 150 * 255 + 29 * 255) % 256 ∧
    (okData (rgb_to_grayscale .uint8
      (⟨[3, 1, 1], fun _ => (255 : ZMod 256)⟩ : Tensor (ZMod 256)) none) [0, 0, 0] 0).val ≠
      76 * 255 + 150 * 255 + 29 * 255 := by
  have h := C5_uint8_wraparound ⟨[3, 1, 1], fun _ => (255 : ZMod 256)⟩
    (by norm_num) (by decide) [0, 0, 0] 0 (by decide)
  constructor
  · have h1 := h.1
    simpa using h1
  · have h2 := h.2 (by decide)
    simpa using h2

/-- C1: on every valid 3-channel input, `rgb_to_lab` computes per pixel:
linear RGB via the gamma codec, XYZ via the forward matrix, elementwise
division by the D65 white point `(0.95047, 1.0, 1.08883)`, the piecewise
nonlinearity `f(t) = t^(1/3)` for `t > 0.008856` and `7.787·t + 4/29`
otherwise, then `L = 116·f(Y) − 16`, `a = 500·(f(X) − f(Y))`,
`b = 200·(f(Y) − f(Z))`, stacked as `[L, a, b]` along the channel axis. -/
theorem C1_rgb_to_lab_formula (image : Tensor ℝ)
    (h3 : 3 ≤ image.shape.length) (hc : image.channelSize = 3) :
    okShape (rgb_to_lab image) = .ok image.shape ∧
    ∀ idx d, validIdx image.shape idx = true →
      okData (rgb_to_lab image) idx d =
        (let pix : Fin 3 → ℝ := fun k => image.data (idx.set (image.shape.length - 3) (k : ℕ))
         let lin : Fin 3 → ℝ := fun c => srgbToLinear (pix c)
         let xyz : Fin 3 → ℝ := fun c => ∑ j : Fin 3, rgbToXyzMat c j * lin j
         let t : Fin 3 → ℝ := fun c => xyz c / (![0.95047, 1.0, 1.08883] : Fin 3 → ℝ) c
         let f : Fin 3 → ℝ := fun c =>
           if t c > 0.008856 then t c ^ ((1 : ℝ) / 3) else 7.787 * t c + 4.0 / 29.0
         ![116.0 * f 1 - 16.0, 500.0 * (f 0 - f 1), 200.0 * (f 1 - f 2)]
           (toFin3 (idx.getD (image.shape.length - 3) 0))) := by
  refine ⟨rgb_to_lab_shape image h3 hc, ?_⟩
  intro idx d hv
  rw [rgb_to_lab_data image h3 hc idx d hv]
  simp only [rgbToLabPix, labFwdF_spec, xyzRefWhite]

theorem C1_rgb_to_lab_formula_witness :
    okShape (rgb_to_lab (⟨[3, 1, 1], fun _ => (0 : ℝ)⟩ : Tensor ℝ)) = .ok [3, 1, 1] ∧
    okData (rgb_to_lab (⟨[3, 1, 1], fun _ => (0 : ℝ)⟩ : Tensor ℝ)) [0, 0, 0] 0 = 0 := by
  have h := C1_rgb_to_lab_formula ⟨[3, 1, 1], fun _ => (0 : ℝ)⟩ (by norm_num) (by decide)
  refine ⟨h.1, ?_⟩
  have h2 := h.2 [0, 0, 0] 0 (by decide)
  rw [h2]
  norm_num [srgbToLinear, toFin3_zero, Fin.sum_univ_three, Matrix.cons_val_zero,
    Matrix.cons_val_one, Matrix.head_cons, Matrix.cons_val_two, Matrix.tail_cons]

/-- C2: on every valid 3-channel Lab input, `lab_to_rgb` computes per pixel
`fy = (L+16)/116`, `fx = a/500 + fy`, `fz = fy − b/200` clamped at minimum
0, the inverse nonlinearity `f^3` for `f > 0.2068966` and `(f − 4/29)/7.787`
otherwise, multiplies by the D65 white point, applies the inverse matrix
and the gamma encoding; with `clip = true` the result is clamped to
`[0, 1]`, with `clip = false` it is returned unclamped. -/
theorem C2_lab_to_rgb_formula (image : Tensor ℝ) (clip : Bool)
    (h3 : 3 ≤ image.shape.length) (hc : image.channelSize = 3) :
    okShape (lab_to_rgb image clip) = .ok image.shape ∧
    ∀ idx d, validIdx image.shape idx = true →
      okData (lab_to_rgb image clip) idx d =
        (let q : Fin 3 → ℝ := fun k => image.data (idx.set (image.shape.length - 3) (k : ℕ))
         let f : Fin 3 → ℝ :=
           ![q 1 / 500.0 + (q 0 + 16.0) / 116.0,
             (q 0 + 16.0) / 116.0,
             max 0 ((q 0 + 16.0) / 116.0 - q 2 / 200.0)]
         let xyz : Fin 3 → ℝ := fun c =>
           (if f c > 0.2068966 then f c ^ (3 : ℕ) else (f c - 4.0 / 29.0) / 7.787) *
             (![0.95047, 1.0, 1.08883] : Fin 3 → ℝ) c
         let lin : Fin 3 → ℝ := fun c => ∑ j : Fin 3, xyzToRgbMat c j * xyz j
         let rgb : Fin 3 → ℝ := fun c => linearToSrgb (lin c)
         (if clip then fun c => min 1 (max 0 (rgb c)) else rgb)
           (toFin3 (idx.getD (image.shape.length - 3) 0))) := by
  refine ⟨lab_to_rgb_shape image clip h3 hc, ?_⟩
  intro idx d hv
  rw [lab_to_rgb_data image clip h3 hc idx d hv]
  simp only [labToRgbPix, labFPix, labInvF, xyzRefWhite]

theorem C2_lab_to_rgb_formula_witness :
    okShape (lab_to_rgb (⟨[3, 1, 1], fun _ => (0 : ℝ)⟩ : Tensor ℝ) true) = .ok [3, 1, 1] ∧
    okData (lab_to_rgb (⟨[3, 1, 1], fun _ => (0 : ℝ)⟩ : Tensor ℝ) true) [0, 0, 0] 0 = 0 := by
  have h := C2_lab_to_rgb_formula ⟨[3, 1, 1], fun _ => (0 : ℝ)⟩ true (by norm_num) (by decide)
  refine ⟨h.1, ?_⟩
  have h2 := h.2 [0, 0, 0] 0 (by decide)
  rw [h2]
  norm_num [linearToSrgb, toFin3_zero, Fin.sum_univ_three, Matrix.cons_val_zero,
    Matrix.cons_val_one, Matrix.head_cons, Matrix.cons_val_two, Matrix.tail_cons]

/-- C3: for every valid 3-channel RGB input with all values in `[0, 1]`,
`lab_to_rgb (rgb_to_lab x) clip=true` approximates `x` elementwise within
`1e-3` (in the real-number model the round trip is exact except near the
nonlinearity thresholds, and clipping can only move a value closer to a
target already in `[0, 1]`). -/
theorem C3_roundtrip (image : Tensor ℝ)
    (h3 : 3 ≤ image.shape.length) (hc : image.channelSize = 3)
    (hrange : ∀ idx, validIdx image.shape idx = true →
      0 ≤ image.data idx ∧ image.data idx ≤ 1)
    (idx : List ℕ) (d : ℝ) (hv : validIdx image.shape idx = true) :
    |okData ((rgb_to_lab image).bind (fun lab => lab_to_rgb lab true)) idx d -
      image.data idx| ≤ 0.001 := by
  have hp : image.shape.length - 3 < image.shape.length := by omega
  have hc' : image.shape.getD (image.shape.length - 3) 0 = 3 := hc
  have hlen : idx.length = image.shape.length := validIdx_length hv
  have hplt : image.shape.length - 3 < idx.length := by omega
  have hshape := rgb_to_lab_shape image h3 hc
  rcases hE : rgb_to_lab image with e | labT
  · rw [hE] at hshape
    simp [okShape, Except.map] at hshape
  · have hTs : labT.shape = image.shape := by
      rw [hE] at hshape
      simpa [okShape, Except.map] using hshape
    rw [show ((Except.ok labT : Except ColorError (Tensor ℝ)).bind
      (fun lab => lab_to_rgb lab true)) = lab_to_rgb labT true from rfl]
    have hpixmem : ∀ k : Fin 3,
        0 ≤ image.data (idx.set (image.shape.length - 3) (k : ℕ)) ∧
        image.data (idx.set (image.shape.length - 3) (k : ℕ)) ≤ 1 := by
      intro k
      apply hrange
      apply validIdx_set _ _ _ _ hv
      rw [hc']
      exact k.isLt
    have hTdata : ∀ k : Fin 3, labT.data (idx.set (image.shape.length - 3) (k : ℕ)) =
        rgbToLabPix (fun k' => image.data (idx.set (image.shape.length - 3) (k' : ℕ))) k := by
      intro k
      have hvk : validIdx image.shape (idx.set (image.shape.length - 3) (k : ℕ)) = true := by
        apply validIdx_set _ _ _ _ hv
        rw [hc']
        exact k.isLt
      have hD := rgb_to_lab_data image h3 hc (idx.set (image.shape.length - 3) (k : ℕ)) 0 hvk
      rw [hE] at hD
      simp only [okData] at hD
      rw [hD]
      congr 1
      · funext k'
        rw [set_set_self]
      · rw [set_getD_self idx _ _ hplt, toFin3_coe]
    have h3T : 3 ≤ labT.shape.length := by
      rw [hTs]
      exact h3
    have hcT : labT.channelSize = 3 := by
      unfold Tensor.channelSize
      rw [hTs]
      exact hc'
    have hvT : validIdx labT.shape idx = true := by
      rw [hTs]
      exact hv
    have hD2 := lab_to_rgb_data labT true h3T hcT idx d hvT
    rw [hD2, show labT.shape.length = image.shape.length from by rw [hTs],
      show (fun k : Fin 3 => labT.data (idx.set (image.shape.length - 3) (k : ℕ))) =
        rgbToLabPix (fun k' => image.data (idx.set (image.shape.length - 3) (k' : ℕ)))
        from by funext k; exact hTdata k]
    have hcc : idx.getD (image.shape.length - 3) 0 < 3 := by
      have hlt := validIdx_getD _ idx (image.shape.length - 3) hv hp
      rwa [hc'] at hlt
    have hPidx : image.data (idx.set (image.shape.length - 3)
        ((toFin3 (idx.getD (image.shape.length - 3) 0) : Fin 3) : ℕ)) = image.data idx := by
      have hcoe : ((toFin3 (idx.getD (image.shape.length - 3) 0) : Fin 3) : ℕ) =
          idx.getD (image.shape.length - 3) 0 := by
        simp only [toFin3]
        omega
      rw [hcoe, set_getD_cancel idx _ hplt]
    rw [← hPidx]
    exact roundtrip_pix _ hpixmem _

theorem C3_roundtrip_witness :
    |okData ((rgb_to_lab (⟨[3, 1, 1], fun _ => (0 : ℝ)⟩ : Tensor ℝ)).bind
      (fun lab => lab_to_rgb lab true)) [0, 0, 0] 0 - 0| ≤ 0.001 := by
  have h := C3_roundtrip ⟨[3, 1, 1], fun _ => (0 : ℝ)⟩ (by norm_num) (by decide)
    (fun idx hvi => by constructor <;> norm_num) [0, 0, 0] 0 (by decide)
  simpa using h

end Claims

end KorniaColor
